import Mathlib

/-!
# Verification of the rom-properties core against its specification

This development gives a shallow embedding, in Lean 4, of the parts of the
rom-properties repository that the specification's claims are about:

* `RomDataFactory::create` (multi-stage format detection dispatcher),
  from `src/libromdata/RomDataFactory.cpp`;
* `Xbox360_XDBF` (the resource-container exemplar parser: entry table,
  string tables, language fallback, size ceilings),
  from `src/libromdata/Console/Xbox360_XDBF.cpp`;
* `RomFields` (typed field table: construction helpers and age-rating
  decoding), from `src/librpbase/RomFields.cpp`.

The embedding is executable and models machine integers as `Nat` with
explicit byteswapping helpers for the big-endian on-disk formats (the host
is modelled as little-endian, which is the configuration the C++ sources
compile to on the reference platform; the big-endian configuration elides
the swaps and is observationally identical).

Constants and struct layouts that live in headers not present in the
source snapshot (`RomFields.hpp`, `xbox360_xdbf_structs.h`) are modelled
from the specification; each such definition is marked `Modelled from the
spec:` in its doc comment.
-/

namespace RomProps

/-! ## Byte-order helpers

The C++ sources use `be16_to_cpu` / `be32_to_cpu` / `be64_to_cpu` and
`cpu_to_beNN`, which on the (little-endian) host are byte swaps.  Stored
on-disk fields are kept in file byte order; loading them into a host
integer yields the byte-swapped value, so comparisons swap the query.
-/

/-- Swap the two bytes of a 16-bit value (`__swab16`). -/
def bswap16 (x : Nat) : Nat :=
  (x % 256) * 256 + (x / 256) % 256

/-- Swap the four bytes of a 32-bit value (`__swab32`). -/
def bswap32 (x : Nat) : Nat :=
  (x % 256) * 2^24 + (x / 2^8 % 256) * 2^16 + (x / 2^16 % 256) * 2^8 + (x / 2^24) % 256

/-- Swap the eight bytes of a 64-bit value (`__swab64`). -/
def bswap64 (x : Nat) : Nat :=
  (x % 256) * 2^56 + (x / 2^8 % 256) * 2^48 + (x / 2^16 % 256) * 2^40 +
  (x / 2^24 % 256) * 2^32 + (x / 2^32 % 256) * 2^24 + (x / 2^40 % 256) * 2^16 +
  (x / 2^48 % 256) * 2^8 + (x / 2^56) % 256

/-- Load a 16-bit little-endian (host-order) value from a byte buffer:
what a `uint16_t` field of a struct overlaid on the buffer reads. -/
def lload16 (b : Nat → Nat) (o : Nat) : Nat :=
  b o % 256 + (b (o+1) % 256) * 256

/-- Load a 32-bit little-endian (host-order) value from a byte buffer. -/
def lload32 (b : Nat → Nat) (o : Nat) : Nat :=
  b o % 256 + (b (o+1) % 256) * 2^8 + (b (o+2) % 256) * 2^16 + (b (o+3) % 256) * 2^24

/-- Load a 64-bit little-endian (host-order) value from a byte buffer. -/
def lload64 (b : Nat → Nat) (o : Nat) : Nat :=
  lload32 b o + lload32 b (o+4) * 2^32

/-- Big-endian 32-bit load: `be32_to_cpu(header.u32[a/4])`, the fast magic
check used by the detection dispatcher. -/
def be32At (b : Nat → Nat) (o : Nat) : Nat :=
  (b o % 256) * 2^24 + (b (o+1) % 256) * 2^16 + (b (o+2) % 256) * 2^8 + b (o+3) % 256

/-! ## Xbox360_XDBF: entry table and `findResource` (claim C4)

`XDBF_Entry` (`xbox360_xdbf_structs.h`, 18 bytes on disk:
`namespace_id : u16`, `resource_id : u64`, `offset : u32`, `length : u32`,
all big-endian; field list as in the spec's ResourceEntry).  The entry
table keeps file byte order (`NOTE: Data is *not* byteswapped on load.`),
so the in-memory (host little-endian) integer fields hold byte-swapped
values; lookups swap the *query* key.
-/

/-- One entry-table record.  Fields hold the raw in-memory values, i.e.
the file's big-endian bytes loaded into host-order integers. -/
structure XDBF_Entry where
  namespace_id : Nat
  resource_id : Nat
  offset : Nat
  length : Nat
  deriving Repr, DecidableEq

/-- `Xbox360_XDBF_Private::findResource`: linear scan of the entry table
for the byte-swapped composite query key; first match wins.  Returns
`none` on an empty (unloaded) entry table. -/
def findResource (entryTable : List XDBF_Entry) (namespace_id resource_id : Nat) :
    Option XDBF_Entry :=
  if entryTable.isEmpty then
    none
  else
    let ns := bswap16 namespace_id
    let rid := bswap64 resource_id
    entryTable.find? (fun p => p.namespace_id == ns && p.resource_id == rid)

/-! ## RomFields: age-rating decoding (claim C5)

The `AgeRatingsBitfield` bit assignments live in `RomFields.hpp`, which is
not part of the source snapshot; they are modelled from the spec.
-/

/-- Modelled from the spec: low 5 bits of a rating slot hold the raw
minimum age (`AGEBF_MIN_AGE_MASK`; `Nintendo3DS_SMDH.cpp` masks with
`0x1F`). -/
def AGEBF_MIN_AGE_MASK : Nat := 0x1F

/-- Modelled from the spec: the "active" bit of a rating slot
(`AGEBF_ACTIVE`; the spec's decode examples fix it at `0x80`). -/
def AGEBF_ACTIVE : Nat := 0x80

/-- Modelled from the spec: the "rating pending" bit (`AGEBF_PENDING`). -/
def AGEBF_PENDING : Nat := 0x40

/-- Modelled from the spec: the "no age restriction" bit
(`AGEBF_NO_RESTRICTION`; the spec's `0xA0` example fixes it at `0x20`). -/
def AGEBF_NO_RESTRICTION : Nat := 0x20

/-- Modelled from the spec: the "rating may change during online play"
bit (`AGEBF_ONLINE_PLAY`). -/
def AGEBF_ONLINE_PLAY : Nat := 0x100

/-- Modelled from the spec: the "game is specifically prohibited" bit
(`AGEBF_PROHIBITED`). -/
def AGEBF_PROHIBITED : Nat := 0x200

/-- Rating-authority index for Japan (CERO): slot 0 of the abbreviation
table in `RomFields::ageRatingAbbrev`. -/
def AGE_JAPAN : Nat := 0

/-- Rating-authority index for the USA (ESRB): slot 1 of the abbreviation
table in `RomFields::ageRatingAbbrev`. -/
def AGE_USA : Nat := 1

/-- Rating-authority index for Australia (ACB): slot 8 of the abbreviation
table in `RomFields::ageRatingAbbrev`. -/
def AGE_AUSTRALIA : Nat := 8

/-- `RomFields::ageRatingAbbrev`: abbreviation of a rating organization,
or `none` for an out-of-range index or an empty table slot.  The i18n
hook `C_` is the identity here (it only localizes, never alters logic). -/
def ageRatingAbbrev (country : Nat) : Option String :=
  let abbrevs : List String :=
    ["CERO", "ESRB", "",        "USK",
     "PEGI", "MEKU", "PEGI-PT", "BBFC",
     "ACB",  "GRB",  "CGSRR",   "",
     "",     "",     "",        ""]
  if country < 16 then
    let s := abbrevs.getD country ""
    if s = "" then none else some s
  else none

/-- `RomFields::ageRatingDecode`: decode one age-rating slot into a
human-readable string; empty string if the rating is not active. -/
def ageRatingDecode (country : Nat) (rating : Nat) : String :=
  if rating &&& AGEBF_ACTIVE == 0 then
    ""
  else
    let s_rating : Option String :=
      if rating &&& AGEBF_PROHIBITED != 0 then some "No"
      else if rating &&& AGEBF_PENDING != 0 then some "RP"
      else if rating &&& AGEBF_NO_RESTRICTION != 0 then some "All"
      else if country = AGE_JAPAN then
        match rating &&& AGEBF_MIN_AGE_MASK with
        | 0 => some "A"
        | 12 => some "B"
        | 15 => some "C"
        | 17 => some "D"
        | 18 => some "Z"
        | _ => none
      else if country = AGE_USA then
        match rating &&& AGEBF_MIN_AGE_MASK with
        | 3 => some "eC"
        | 6 => some "E"
        | 10 => some "E10+"
        | 13 => some "T"
        | 17 => some "M"
        | 18 => some "AO"
        | _ => none
      else if country = AGE_AUSTRALIA then
        match rating &&& AGEBF_MIN_AGE_MASK with
        | 0 => some "G"
        | 7 => some "PG"
        | 14 => some "M"
        | 15 => some "MA15+"
        | 18 => some "R18+"
        | _ => none
      else none
    let str :=
      match s_rating with
      | some s => s
      | none => toString (rating &&& AGEBF_MIN_AGE_MASK)
    if rating &&& AGEBF_ONLINE_PLAY != 0 then str ++ "°" else str

/-- Loop body of `RomFields::ageRatingsDecode`: fold over the slots,
carrying the authority index, the count of active ratings seen so far and
the accumulated string; returns the final string and count. -/
def ageRatingsDecodeGo (newlines : Bool) : List Nat → Nat → Nat → String → String × Nat
  | [], _, count, acc => (acc, count)
  | r :: rest, i, count, acc =>
    if r &&& AGEBF_ACTIVE == 0 then
      ageRatingsDecodeGo newlines rest (i+1) count acc
    else
      let acc := if count > 0 then
          (if newlines && count % 4 == 0 then acc ++ ",\n" else acc ++ ", ")
        else acc
      let acc := acc ++ (match ageRatingAbbrev i with
        | some a => a
        | none => toString i)
      let acc := acc ++ "=" ++ ageRatingDecode i r
      ageRatingsDecodeGo newlines rest (i+1) (count+1) acc

/-- `RomFields::ageRatingsDecode`: decode the whole per-authority rating
array, skipping inactive slots; `"None"` when no slot is active. -/
def ageRatingsDecode (ratings : List Nat) (newlines : Bool) : String :=
  let (s, count) := ageRatingsDecodeGo newlines ratings 0 0 ""
  if count = 0 then "None" else s

/-- Expected ESRB label for an active rating with min-age bits `n`, as
the claim states it: the six mapped ages, otherwise the printed number. -/
def usaLabelSpec (n : Nat) : String :=
  match n with
  | 3 => "eC"
  | 6 => "E"
  | 10 => "E10+"
  | 13 => "T"
  | 17 => "M"
  | 18 => "AO"
  | m => toString m

/-! ## RomFields: field-table construction helpers (claim C9)

`RomFields` is a tab-grouped ordered list of typed fields.  The
`addField_*` helpers each validate their required inputs, then append one
field tagged with the current tab index and return its index; on a null
required input they return `-1` without touching the table.  Nullable C++
pointer arguments are modelled as `Option`.
-/

/-- Field type tag (`RomFields::RomFieldType`). -/
inductive FieldType where
  | rftInvalid
  | rftString
  | rftBitfield
  | rftListData
  | rftDateTime
  | rftAgeRatings
  | rftDimensions
  deriving Repr, DecidableEq

/-- The `mxd` union of an RFT_LISTDATA field: checkboxes or icons. -/
inductive ListDataMxd where
  | unset
  | checkboxes (v : Nat)
  | icons (l : List Nat)
  deriving Repr, DecidableEq

/-- Payload of a field (the C++ `desc`/`data` unions, combined). -/
inductive FieldData where
  | nothing
  | str (flags : Nat) (s : Option String)
  | bitfield (elemsPerRow : Int) (names : List String) (value : Nat)
  | listData (flags : Nat) (rowsVisible : Int) (headers : Option (List String))
      (rows : Option (List (List String))) (mxd : ListDataMxd)
  | dateTime (flags : Nat) (t : Int)
  | ageRatings (r : List Nat)
  | dimensions (x y z : Int)
  deriving Repr, DecidableEq

/-- One entry of the field table (`RomFields::Field`). -/
structure Field where
  name : String
  typ : FieldType
  tabIdx : Nat
  isValid : Bool
  data : FieldData
  deriving Repr, DecidableEq

/-- The field table: ordered fields, current tab index, tab names
(`RomFieldsPrivate`). -/
structure RomFields where
  fields : List Field
  tabIdx : Nat
  tabNames : List String
  deriving Repr, DecidableEq

/-- Modelled from the spec: the `STRF_TRIM_END` formatting flag of
`RomFields.hpp` (value immaterial to the claims). -/
def STRF_TRIM_END : Nat := 8

/-- Modelled from the spec: `RFT_LISTDATA_CHECKBOXES` flag bit. -/
def RFT_LISTDATA_CHECKBOXES : Nat := 1

/-- Modelled from the spec: `RFT_LISTDATA_ICONS` flag bit. -/
def RFT_LISTDATA_ICONS : Nat := 2

/-- Modelled from the spec: `trimEnd` of `TextFuncs` (header-only in the
snapshot): remove trailing spaces from a string. -/
def trimEnd (s : String) : String :=
  ⟨(s.data.reverse.dropWhile (fun c => c = ' ')).reverse⟩

/-- `RomFields::addField_string` (the `const char *str` overload): append
one RFT_STRING field on the current tab, or return `-1` on a null name. -/
def addField_string (rf : RomFields) (name : Option String) (str : Option String)
    (flags : Nat) : Int × RomFields :=
  match name with
  | none => (-1, rf)
  | some n =>
    let idx := rf.fields.length
    let nstr := if flags &&& STRF_TRIM_END != 0 then str.map trimEnd else str
    let field : Field :=
      { name := n, typ := .rftString, tabIdx := rf.tabIdx, isValid := true
        data := .str flags nstr }
    (Int.ofNat idx, { rf with fields := rf.fields ++ [field] })

/-- `RomFields::addField_bitfield`: append one RFT_BITFIELD field, or
return `-1` when the name or the bit-name list is null. -/
def addField_bitfield (rf : RomFields) (name : Option String)
    (bit_names : Option (List String)) (elemsPerRow : Int) (bitfield : Nat) :
    Int × RomFields :=
  match name, bit_names with
  | some n, some names =>
    let idx := rf.fields.length
    let field : Field :=
      { name := n, typ := .rftBitfield, tabIdx := rf.tabIdx, isValid := true
        data := .bitfield elemsPerRow names bitfield }
    (Int.ofNat idx, { rf with fields := rf.fields ++ [field] })
  | _, _ => (-1, rf)

/-- Parameters of `RomFields::addField_listData` (`AFLD_PARAMS`). -/
structure AFLD_PARAMS where
  flags : Nat
  rows_visible : Int
  headers : Option (List String)
  list_data : Option (List (List String))
  icons : Option (List Nat)
  checkboxes : Nat
  deriving Repr, DecidableEq

/-- Clear the bits of `mask` in `x` (the C++ `x & ~mask` on a bitmask
that is a subset of the word width). -/
def clearBits (x mask : Nat) : Nat :=
  x ^^^ (x &&& mask)

/-- `RomFields::addField_listData`: append one RFT_LISTDATA field, or
return `-1` when the name or the parameter block is null.  A
checkboxes+icons flag combination keeps neither; a null icon list drops
the icons flag from the stored descriptor. -/
def addField_listData (rf : RomFields) (name : Option String)
    (params : Option AFLD_PARAMS) : Int × RomFields :=
  match name, params with
  | some n, some p =>
    let flags :=
      if p.flags &&& (RFT_LISTDATA_CHECKBOXES ||| RFT_LISTDATA_ICONS)
          == RFT_LISTDATA_CHECKBOXES ||| RFT_LISTDATA_ICONS then
        clearBits p.flags (RFT_LISTDATA_CHECKBOXES ||| RFT_LISTDATA_ICONS)
      else p.flags
    let idx := rf.fields.length
    let rows_visible := if p.rows_visible ≥ 0 then p.rows_visible else 0
    let descFlags :=
      if flags &&& RFT_LISTDATA_CHECKBOXES != 0 then p.flags
      else if flags &&& RFT_LISTDATA_ICONS != 0 then
        (match p.icons with
        | some _ => p.flags
        | none => clearBits p.flags RFT_LISTDATA_ICONS)
      else p.flags
    let mxd :=
      if flags &&& RFT_LISTDATA_CHECKBOXES != 0 then ListDataMxd.checkboxes p.checkboxes
      else if flags &&& RFT_LISTDATA_ICONS != 0 then
        (match p.icons with
        | some ic => ListDataMxd.icons ic
        | none => ListDataMxd.unset)
      else ListDataMxd.unset
    let field : Field :=
      { name := n, typ := .rftListData, tabIdx := rf.tabIdx, isValid := true
        data := .listData descFlags rows_visible p.headers p.list_data mxd }
    (Int.ofNat idx, { rf with fields := rf.fields ++ [field] })
  | _, _ => (-1, rf)

/-- `RomFields::addField_dateTime`: append one RFT_DATETIME field, or
return `-1` on a null name. -/
def addField_dateTime (rf : RomFields) (name : Option String) (date_time : Int)
    (flags : Nat) : Int × RomFields :=
  match name with
  | none => (-1, rf)
  | some n =>
    let idx := rf.fields.length
    let field : Field :=
      { name := n, typ := .rftDateTime, tabIdx := rf.tabIdx, isValid := true
        data := .dateTime flags date_time }
    (Int.ofNat idx, { rf with fields := rf.fields ++ [field] })

/-- `RomFields::addField_ageRatings`: append one RFT_AGE_RATINGS field
(the rating array is copied), or return `-1` on a null name. -/
def addField_ageRatings (rf : RomFields) (name : Option String)
    (age_ratings : List Nat) : Int × RomFields :=
  match name with
  | none => (-1, rf)
  | some n =>
    let idx := rf.fields.length
    let field : Field :=
      { name := n, typ := .rftAgeRatings, tabIdx := rf.tabIdx, isValid := true
        data := .ageRatings age_ratings }
    (Int.ofNat idx, { rf with fields := rf.fields ++ [field] })

/-- `RomFields::addField_dimensions`: append one RFT_DIMENSIONS field, or
return `-1` on a null name. -/
def addField_dimensions (rf : RomFields) (name : Option String)
    (dimX dimY dimZ : Int) : Int × RomFields :=
  match name with
  | none => (-1, rf)
  | some n =>
    let idx := rf.fields.length
    let field : Field :=
      { name := n, typ := .rftDimensions, tabIdx := rf.tabIdx, isValid := true
        data := .dimensions dimX dimY dimZ }
    (Int.ofNat idx, { rf with fields := rf.fields ++ [field] })

/-! ## RomDataFactory: the detection dispatcher (claims C1, C2, C3, C10)

`RomDataFactory::create` drives three static descriptor tables (magic,
header, footer) against a `DetectInfo` built from one open file.  The
descriptor's class-specific pieces (`isRomSupported`, the constructed
handler's validity) are modelled as function/boolean fields since the
subclasses live outside this translation unit.  The file abstraction
(`IRpFile`) supplies sizes and read results; the 4,096+256-byte header
buffer is a byte function whose unread tail is the uninitialized stack
content `uninit`.
-/

/-- Case-insensitive string equality (`strcasecmp(a, b) == 0`). -/
def strcaseEq (a b : String) : Bool :=
  a.data.map Char.toLower == b.data.map Char.toLower

/-- `RomData::DetectInfo`: the detection context handed to each
descriptor's `isRomSupported` function. -/
structure DetectInfo where
  header_addr : Nat
  header_size : Nat
  header_data : Nat → Nat
  ext : Option String
  szFile : Int

/-- One catalog descriptor (`RomDataFactoryPrivate::RomDataFns`).
`address`/`size` are the extra fields for headers at specific addresses;
in the magic table `size` holds the 32-bit magic number. -/
structure RomDataFns where
  isRomSupported : DetectInfo → Int
  newRomDataValid : Bool
  attrs : Nat
  address : Nat
  size : Nat

/-- Which of the three static tables a descriptor came from. -/
inductive Stage where
  | magic
  | header
  | footer
  deriving Repr, DecidableEq

/-- A constructed `RomData` handler: either the Dreamcast `.VMI+.VMS`
paired-file special case, or the handler built by the descriptor at a
stage/table position. -/
inductive Handler where
  | dreamcastSavePair
  | fromDescriptor (stage : Stage) (idx : Nat)
  deriving Repr, DecidableEq

/-- The three ordered descriptor tables (`romDataFns_magic`,
`romDataFns_header`, `romDataFns_footer`). -/
structure Catalog where
  magicFns : List RomDataFns
  headerFns : List RomDataFns
  footerFns : List RomDataFns

/-- The file abstraction consumed by the dispatcher: size, extension,
byte contents, per-call read lengths, seek success, and the outcome of
the externally-implemented Dreamcast pair opening. -/
structure IRpFile where
  szFile : Int
  ext : Option String
  byteAt : Nat → Nat
  uninit : Nat → Nat
  readLen : Nat → Nat → Nat
  seekOk : Nat → Bool
  dcPairOpens : Bool
  dcSaveValid : Bool
  readLen_le : ∀ a n, readLen a n ≤ n

/-- The mutable header-window state of one `create` call: buffered
address, buffered size, and the buffer bytes. -/
structure ScanState where
  addr : Nat
  size : Nat
  buf : Nat → Nat

/-- Build the `DetectInfo` view of the current scan state. -/
def infoOf (file : IRpFile) (st : ScanState) : DetectInfo :=
  { header_addr := st.addr, header_size := st.size, header_data := st.buf
    ext := file.ext, szFile := file.szFile }

/-- `RomDataFactoryPrivate::openDreamcastVMSandVMI`: size-based
VMS/VMI disambiguation (`VMS files are always a multiple of 512 bytes,
or 160 bytes for some monochrome ICONDATA_VMS; VMI files are always 108
bytes`), sibling open, and pair construction. -/
def openDreamcastVMSandVMI (file : IRpFile) : Option Handler :=
  let filesize := file.szFile
  let has_dc_vms : Bool := filesize % 512 == 0 || filesize == 160
  let has_dc_vmi : Bool := filesize == 108
  if !(xor has_dc_vms has_dc_vmi) then none
  else if !file.dcPairOpens then none
  else if file.dcSaveValid then some .dreamcastSavePair
  else none

/-- The `.vms`/`.vmi` special-case gate at the top of `create`. -/
def vmsSpecialTry (file : IRpFile) : Option Handler :=
  match file.ext with
  | some e =>
    if strcaseEq e ".vms" || strcaseEq e ".vmi" then openDreamcastVMSandVMI file
    else none
  | none => none

/-- Try one descriptor on the current detection window: consult
`isRomSupported` and, when it accepts, construct the handler and keep it
iff it reports Valid (`if (fns->isRomSupported(&info) >= 0) { ... if
(romData->isValid()) return romData; romData->unref(); }`). -/
def tryFns (file : IRpFile) (fns : RomDataFns) (st : ScanState) (stage : Stage)
    (idx : Nat) : Option Handler :=
  if fns.isRomSupported (infoOf file st) ≥ 0 then
    (if fns.newRomDataValid then some (.fromDescriptor stage idx) else none)
  else none

/-- The magic-stage loop of `create`: skip descriptors missing the
requested attributes, compare the big-endian 32-bit word of the buffered
header at the descriptor's (aligned) address with the descriptor's magic,
and only then consult `isRomSupported` and construct; an Invalid
construction continues the scan. -/
def scanMagic (file : IRpFile) (attrs : Nat) (st : ScanState) :
    List RomDataFns → Nat → Option Handler
  | [], _ => none
  | fns :: rest, idx =>
    if fns.attrs &&& attrs != attrs then
      scanMagic file attrs st rest (idx+1)
    else if be32At st.buf (fns.address / 4 * 4) == fns.size then
      if fns.isRomSupported (infoOf file st) ≥ 0 then
        if fns.newRomDataValid then some (.fromDescriptor .magic idx)
        else scanMagic file attrs st rest (idx+1)
      else scanMagic file attrs st rest (idx+1)
    else scanMagic file attrs st rest (idx+1)

/-- The hard-coded extension allow-list for header re-reads at non-zero
addresses (generic `.bin`, Sega Master System, Game Gear, game.com). -/
def extAllowedHeader (e : String) : Bool :=
  strcaseEq e ".bin" || strcaseEq e ".sms" || strcaseEq e ".gg" || strcaseEq e ".tgc"

/-- The header-stage loop of `create`, threading the header-window state:
when a descriptor needs a different window the loop either breaks (no
usable extension), skips the descriptor (bad size / file too small / seek
or short read failure, with the partial state updates the C++ performs),
or re-reads the window; surviving descriptors are tried and an Invalid
construction continues the scan.  Returns the result and the final
window state (used afterwards by the footer stage). -/
def scanHeader (file : IRpFile) (attrs : Nat) :
    List RomDataFns → Nat → ScanState → Option Handler × ScanState
  | [], _, st => (none, st)
  | fns :: rest, idx, st =>
    if fns.attrs &&& attrs != attrs then
      scanHeader file attrs rest (idx+1) st
    else if fns.address != st.addr || fns.size > st.size then
      match file.ext with
      | none => (none, st)
      | some e =>
        if !extAllowedHeader e then (none, st)
        else if fns.size == 0 || fns.size > 4352 then
          scanHeader file attrs rest (idx+1) st
        else if (fns.address : Int) + (fns.size : Int) > file.szFile then
          scanHeader file attrs rest (idx+1) st
        else
          let st1 : ScanState := { st with addr := fns.address }
          if !file.seekOk fns.address then
            scanHeader file attrs rest (idx+1) st1
          else
            let n := file.readLen fns.address fns.size
            let st2 : ScanState :=
              { addr := fns.address, size := n
                buf := fun i => if i < n then file.byteAt (fns.address + i) else st.buf i }
            if n != fns.size then
              scanHeader file attrs rest (idx+1) st2
            else
              match tryFns file fns st2 .header idx with
              | some h => (some h, st2)
              | none => scanHeader file attrs rest (idx+1) st2
    else
      match tryFns file fns st .header idx with
      | some h => (some h, st)
      | none => scanHeader file attrs rest (idx+1) st

/-- Footer-stage extension filter: the file extension matches `.vb`
(hard-coded; the FIXME notes it stands for the footer descriptors'
extension lists, currently only VirtualBoy). -/
def extIsVb (file : IRpFile) : Bool :=
  match file.ext with
  | some e => strcaseEq e ".vb"
  | none => false

/-- The footer-stage loop of `create`: descriptors are filtered by the
requested attributes and by the `.vb` extension; the 1,024-byte trailing
window is read lazily, at most once, and a zero-length footer read aborts
the whole detection. -/
def scanFooter (file : IRpFile) (attrs : Nat) :
    List RomDataFns → Nat → Bool → ScanState → Option Handler
  | [], _, _, _ => none
  | fns :: rest, idx, readFooter, st =>
    if fns.attrs &&& attrs != attrs then
      scanFooter file attrs rest (idx+1) readFooter st
    else if !extIsVb file then
      scanFooter file attrs rest (idx+1) readFooter st
    else if readFooter then
      match tryFns file fns st .footer idx with
      | some h => some h
      | none => scanFooter file attrs rest (idx+1) true st
    else if file.szFile > 1024 then
      let addr := (file.szFile - 1024).toNat
      let n := if file.seekOk addr then file.readLen addr 1024 else 0
      let st' : ScanState :=
        { addr := addr, size := n
          buf := fun i => if i < n then file.byteAt (addr + i) else st.buf i }
      if n = 0 then none
      else
        match tryFns file fns st' .footer idx with
        | some h => some h
        | none => scanFooter file attrs rest (idx+1) true st'
    else
      match tryFns file fns st .footer idx with
      | some h => some h
      | none => scanFooter file attrs rest (idx+1) true st

/-- The header buffer right after the initial 4,096+256-byte read: file
bytes up to the returned length, uninitialized stack content beyond. -/
def initialBuf (file : IRpFile) : Nat → Nat :=
  fun i => if i < file.readLen 0 4352 then file.byteAt i else file.uninit i

/-- `RomDataFactory::create`: read the detection header (null on a
zero-length read), try the Dreamcast paired-file special case, then run
the magic, header and footer stages in order; the footer stage only for
files of at most 1 GiB. -/
def create (cat : Catalog) (file : IRpFile) (attrs : Nat) : Option Handler :=
  let headerSize0 := file.readLen 0 4352
  if headerSize0 = 0 then none
  else
    let st0 : ScanState := ⟨0, headerSize0, initialBuf file⟩
    match vmsSpecialTry file with
    | some h => some h
    | none =>
      match scanMagic file attrs st0 cat.magicFns 0 with
      | some h => some h
      | none =>
        match scanHeader file attrs cat.headerFns 0 st0 with
        | (some h, _) => some h
        | (none, st1) =>
          if file.szFile > 1073741824 then none
          else scanFooter file attrs cat.footerFns 0 false st1

/-! ### Claim-side (spec-worded) view of the dispatcher

The claim describes `create` as a single scan over all catalog
descriptors in stage order — magic, then header, then footer, each in
table order — returning the handler of the first descriptor whose check
succeeds, whose `is_supported` accepts and whose handler constructs
Valid, and null when there is none.  The following definitions build,
per descriptor, its candidate outcome (`some` handler iff all three
conditions hold), and take the first hit of the concatenated list.
-/

/-- First `some` of a candidate list ("the first handler whose
constructor reports Valid is returned immediately; handlers that
construct but report Invalid are discarded and the search continues"). -/
def firstSome : List (Option Handler) → Option Handler
  | [] => none
  | some h :: _ => some h
  | none :: rest => firstSome rest

/-- Candidate outcomes of the magic stage: a descriptor succeeds iff it
has the requested attributes, the buffered header's big-endian word at
its address equals its magic, `is_supported` accepts, and the handler
constructs Valid. -/
def magicCandidates (file : IRpFile) (attrs : Nat) (st : ScanState) :
    List RomDataFns → Nat → List (Option Handler)
  | [], _ => []
  | fns :: rest, idx =>
    (if fns.attrs &&& attrs == attrs
        ∧ be32At st.buf (fns.address / 4 * 4) == fns.size
        ∧ fns.isRomSupported (infoOf file st) ≥ 0
        ∧ fns.newRomDataValid then
      some (.fromDescriptor .magic idx)
    else none) :: magicCandidates file attrs st rest (idx+1)

/-- Candidate outcomes of the header stage, threading the window state:
a descriptor succeeds iff it survives the attribute filter and the
window checks (re-reading when needed), `is_supported` accepts, and the
handler constructs Valid; once the loop would break, every remaining
descriptor fails. -/
def headerCandidates (file : IRpFile) (attrs : Nat) :
    List RomDataFns → Nat → ScanState → List (Option Handler)
  | [], _, _ => []
  | fns :: rest, idx, st =>
    if fns.attrs &&& attrs != attrs then
      none :: headerCandidates file attrs rest (idx+1) st
    else if fns.address != st.addr || fns.size > st.size then
      match file.ext with
      | none => List.replicate (rest.length + 1) none
      | some e =>
        if !extAllowedHeader e then List.replicate (rest.length + 1) none
        else if fns.size == 0 || fns.size > 4352 then
          none :: headerCandidates file attrs rest (idx+1) st
        else if (fns.address : Int) + (fns.size : Int) > file.szFile then
          none :: headerCandidates file attrs rest (idx+1) st
        else
          let st1 : ScanState := { st with addr := fns.address }
          if !file.seekOk fns.address then
            none :: headerCandidates file attrs rest (idx+1) st1
          else
            let n := file.readLen fns.address fns.size
            let st2 : ScanState :=
              { addr := fns.address, size := n
                buf := fun i => if i < n then file.byteAt (fns.address + i) else st.buf i }
            if n != fns.size then
              none :: headerCandidates file attrs rest (idx+1) st2
            else
              tryFns file fns st2 .header idx :: headerCandidates file attrs rest (idx+1) st2
    else
      tryFns file fns st .header idx :: headerCandidates file attrs rest (idx+1) st

/-- The header-window state left behind by the header stage when it does
not return a handler (the footer stage starts from it). -/
def headerFinalState (file : IRpFile) (attrs : Nat) :
    List RomDataFns → ScanState → ScanState
  | [], st => st
  | fns :: rest, st =>
    if fns.attrs &&& attrs != attrs then
      headerFinalState file attrs rest st
    else if fns.address != st.addr || fns.size > st.size then
      match file.ext with
      | none => st
      | some e =>
        if !extAllowedHeader e then st
        else if fns.size == 0 || fns.size > 4352 then
          headerFinalState file attrs rest st
        else if (fns.address : Int) + (fns.size : Int) > file.szFile then
          headerFinalState file attrs rest st
        else
          let st1 : ScanState := { st with addr := fns.address }
          if !file.seekOk fns.address then
            headerFinalState file attrs rest st1
          else
            let n := file.readLen fns.address fns.size
            let st2 : ScanState :=
              { addr := fns.address, size := n
                buf := fun i => if i < n then file.byteAt (fns.address + i) else st.buf i }
            headerFinalState file attrs rest st2
    else headerFinalState file attrs rest st

/-- Candidate outcomes of the footer stage, threading the lazily-read
trailing window: a descriptor succeeds iff it survives the attribute and
extension filters, `is_supported` accepts on the trailing window and the
handler constructs Valid; a failed trailing-window read fails every
remaining descriptor. -/
def footerCandidates (file : IRpFile) (attrs : Nat) :
    List RomDataFns → Nat → Bool → ScanState → List (Option Handler)
  | [], _, _, _ => []
  | fns :: rest, idx, readFooter, st =>
    if fns.attrs &&& attrs != attrs then
      none :: footerCandidates file attrs rest (idx+1) readFooter st
    else if !extIsVb file then
      none :: footerCandidates file attrs rest (idx+1) readFooter st
    else if readFooter then
      tryFns file fns st .footer idx :: footerCandidates file attrs rest (idx+1) true st
    else if file.szFile > 1024 then
      let addr := (file.szFile - 1024).toNat
      let n := if file.seekOk addr then file.readLen addr 1024 else 0
      let st' : ScanState :=
        { addr := addr, size := n
          buf := fun i => if i < n then file.byteAt (addr + i) else st.buf i }
      if n = 0 then List.replicate (rest.length + 1) none
      else
        tryFns file fns st' .footer idx :: footerCandidates file attrs rest (idx+1) true st'
    else
      tryFns file fns st .footer idx :: footerCandidates file attrs rest (idx+1) true st

/-- The claim-side description of `create`: the first descriptor — magic
stage, then header stage, then footer stage (the latter only for files
of at most 1 GiB), each in table order — whose check succeeds, whose
`is_supported` accepts and whose constructed handler reports Valid;
null when no descriptor yields a Valid handler. -/
def createClaim (cat : Catalog) (file : IRpFile) (attrs : Nat) : Option Handler :=
  let st0 : ScanState := ⟨0, file.readLen 0 4352, initialBuf file⟩
  let st1 := headerFinalState file attrs cat.headerFns st0
  firstSome
    (magicCandidates file attrs st0 cat.magicFns 0
      ++ (headerCandidates file attrs cat.headerFns 0 st0
        ++ (if file.szFile > 1073741824 then []
            else footerCandidates file attrs cat.footerFns 0 false st1)))

/-! ### Footer-read instrumentation (claim C3)

`scanFooterReads` counts, along the very same control flow as
`scanFooter`, how many times the trailing window is read.
-/

/-- Number of trailing-window reads performed by the footer-stage loop. -/
def scanFooterReads (file : IRpFile) (attrs : Nat) :
    List RomDataFns → Nat → Bool → ScanState → Nat
  | [], _, _, _ => 0
  | fns :: rest, idx, readFooter, st =>
    if fns.attrs &&& attrs != attrs then
      scanFooterReads file attrs rest (idx+1) readFooter st
    else if !extIsVb file then
      scanFooterReads file attrs rest (idx+1) readFooter st
    else if readFooter then
      match tryFns file fns st .footer idx with
      | some _ => 0
      | none => scanFooterReads file attrs rest (idx+1) true st
    else if file.szFile > 1024 then
      let addr := (file.szFile - 1024).toNat
      let n := if file.seekOk addr then file.readLen addr 1024 else 0
      let st' : ScanState :=
        { addr := addr, size := n
          buf := fun i => if i < n then file.byteAt (addr + i) else st.buf i }
      if n = 0 then 1
      else
        match tryFns file fns st' .footer idx with
        | some _ => 1
        | none => 1 + scanFooterReads file attrs rest (idx+1) true st'
    else
      match tryFns file fns st .footer idx with
      | some _ => 0
      | none => scanFooterReads file attrs rest (idx+1) true st

/-- Number of trailing-window reads performed by a whole `create` call. -/
def createFooterReads (cat : Catalog) (file : IRpFile) (attrs : Nat) : Nat :=
  let headerSize0 := file.readLen 0 4352
  if headerSize0 = 0 then 0
  else
    let st0 : ScanState := ⟨0, headerSize0, initialBuf file⟩
    match vmsSpecialTry file with
    | some _ => 0
    | none =>
      match scanMagic file attrs st0 cat.magicFns 0 with
      | some _ => 0
      | none =>
        match scanHeader file attrs cat.headerFns 0 st0 with
        | (some _, _) => 0
        | (none, st1) =>
          if file.szFile > 1073741824 then 0
          else scanFooterReads file attrs cat.footerFns 0 false st1

/-! ### Descriptor-agreement relations (claims C1 and C2) -/

/-- Two descriptors that agree on the attribute/address/magic fields and
are identical whenever the buffered magic word matches: replacing a
magic-stage descriptor by such a sibling can only differ in the
`is_supported` predicate and construction outcome of descriptors whose
magic compare fails. -/
def MagicAgree (buf : Nat → Nat) (a b : RomDataFns) : Prop :=
  a.attrs = b.attrs ∧ a.address = b.address ∧ a.size = b.size ∧
    (be32At buf (a.address / 4 * 4) = a.size → a = b)

/-- Two descriptors that agree on the attribute bits and are identical
whenever those bits contain the requested attributes: replacing a
descriptor by such a sibling can only differ in descriptors the
attribute filter skips. -/
def SkipAgree (attrs : Nat) (a b : RomDataFns) : Prop :=
  a.attrs = b.attrs ∧ (a.attrs &&& attrs = attrs → a = b)

/-- The descriptor table of a stage. -/
def stageFns (cat : Catalog) : Stage → List RomDataFns
  | .magic => cat.magicFns
  | .header => cat.headerFns
  | .footer => cat.footerFns

/-! ### Concrete sample inputs used to exercise the dispatcher -/

/-- A 200-byte all-zero file with no extension, all seeks succeeding,
no Dreamcast sibling. -/
def sampleFile : IRpFile where
  szFile := 200
  ext := none
  byteAt := fun _ => 0
  uninit := fun _ => 0
  readLen := fun a n => if a = 0 then min n 200 else 0
  seekOk := fun _ => true
  dcPairOpens := false
  dcSaveValid := false
  readLen_le := by
    intro a n
    by_cases h : a = 0
    · simp only [h, if_pos rfl]
      exact Nat.min_le_left n 200
    · simp only [if_neg h]
      exact Nat.zero_le n

/-- A 108-byte file with extension `.vms` whose Dreamcast sibling opens
and validates. -/
def vmsFile : IRpFile where
  szFile := 108
  ext := some ".vms"
  byteAt := fun _ => 0
  uninit := fun _ => 0
  readLen := fun a n => if a = 0 then min n 108 else 0
  seekOk := fun _ => true
  dcPairOpens := true
  dcSaveValid := true
  readLen_le := by
    intro a n
    by_cases h : a = 0
    · simp only [h, if_pos rfl]
      exact Nat.min_le_left n 108
    · simp only [if_neg h]
      exact Nat.zero_le n

/-- A 2 GiB file (above the footer-stage ceiling), fully readable. -/
def bigFile : IRpFile where
  szFile := 2147483648
  ext := some ".vb"
  byteAt := fun _ => 0
  uninit := fun _ => 0
  readLen := fun _ n => n
  seekOk := fun _ => true
  dcPairOpens := false
  dcSaveValid := false
  readLen_le := fun _ n => Nat.le_refl n

/-- A file whose every read returns zero bytes, yet with a validating
Dreamcast sibling. -/
def unreadableFile : IRpFile where
  szFile := 108
  ext := some ".vms"
  byteAt := fun _ => 0
  uninit := fun _ => 0
  readLen := fun _ _ => 0
  seekOk := fun _ => true
  dcPairOpens := true
  dcSaveValid := true
  readLen_le := fun _ n => Nat.zero_le n

/-- A descriptor that matches everything: magic 0 at offset 0, accepting
predicate, Valid construction, no required attributes. -/
def acceptAllFns : RomDataFns where
  isRomSupported := fun _ => 0
  newRomDataValid := true
  attrs := 0
  address := 0
  size := 0

/-- A catalog with the single all-accepting magic descriptor. -/
def sampleCat : Catalog := ⟨[acceptAllFns], [], []⟩

/-- The empty catalog. -/
def emptyCat : Catalog := ⟨[], [], []⟩

/-! ## Xbox360_XDBF: the resource-container parser (claims C6, C7, C8)

The byte-level layouts and magic constants live in
`xbox360_xdbf_structs.h`, which is not part of the source snapshot; they
are modelled from the spec (fixed header with magic/version and table
lengths, 18-byte entries, per-language XSTR string tables with an
embedded sub-header, an XSTC default-language metadata resource).  The
parsing logic itself is translated from `Xbox360_XDBF.cpp`.
-/

/-- Modelled from the spec: the XDBF container magic (`'XDBF'`). -/
def XDBF_MAGIC : Nat := 0x58444246

/-- Modelled from the spec: the XDBF container version. -/
def XDBF_VERSION : Nat := 0x10000

/-- Modelled from the spec: namespace ID of metadata resources. -/
def XDBF_SPA_NAMESPACE_METADATA : Nat := 1

/-- Modelled from the spec: namespace ID of image resources. -/
def XDBF_SPA_NAMESPACE_IMAGE : Nat := 2

/-- Modelled from the spec: namespace ID of string-table resources. -/
def XDBF_SPA_NAMESPACE_STRING_TABLE : Nat := 3

/-- `XDBF_LANGUAGE_UNKNOWN`: 0. -/
def XDBF_LANGUAGE_UNKNOWN : Int := 0

/-- `XDBF_LANGUAGE_ENGLISH`: English is language 1 (stated in
`addFields_strings`). -/
def XDBF_LANGUAGE_ENGLISH : Int := 1

/-- `XDBF_LANGUAGE_JAPANESE`: Japanese is language 2 (stated in
`addFields_strings`). -/
def XDBF_LANGUAGE_JAPANESE : Int := 2

/-- Modelled from the spec: the German language slot. -/
def XDBF_LANGUAGE_GERMAN : Int := 3

/-- Modelled from the spec: the Korean language slot. -/
def XDBF_LANGUAGE_KOREAN : Int := 7

/-- Modelled from the spec: one-past-the-last language slot. -/
def XDBF_LANGUAGE_MAX : Int := 9

/-- Modelled from the spec: magic of an XSTR string-table sub-header
(`'XSTR'`). -/
def XDBF_XSTR_MAGIC : Nat := 0x58535452

/-- Modelled from the spec: version of an XSTR sub-header. -/
def XDBF_XSTR_VERSION : Nat := 1

/-- Modelled from the spec: size of the embedded XSTR sub-header
(`sizeof(XDBF_XSTR_Header)`: magic, version, size, string count). -/
def XDBF_XSTR_Header_SIZE : Nat := 14

/-- Modelled from the spec: magic/resource ID of the XSTC
default-language metadata resource (`'XSTC'`). -/
def XDBF_XSTC_MAGIC : Nat := 0x58535443

/-- Modelled from the spec: version of the XSTC resource. -/
def XDBF_XSTC_VERSION : Nat := 1

/-- Modelled from the spec: the string ID of the title string
(`XDBF_ID_TITLE`). -/
def XDBF_ID_TITLE : Nat := 0x8000

/-- The file behind one XDBF handler: bytes, per-read returned lengths,
the host's Xbox 360 system language (`XboxLanguage::getXbox360Language`,
external) and the external PNG decoder's outcome per (address, length)
region. -/
structure XdbfFile where
  byteAt : Nat → Nat
  readLenAt : Nat → Nat → Nat
  systemLanguage : Int
  pngDecodeOk : Nat → Nat → Bool

/-- One loaded string table: the raw cached byte blob
(`ao::uvector<char>`). -/
structure StrTbl where
  size : Nat
  data : Nat → Nat

/-- The private state of one `Xbox360_XDBF` handler
(`Xbox360_XDBF_Private` plus the header fields `init()` fills in). -/
structure XdbfState where
  isValid : Bool
  fileOpen : Bool
  magic : Nat
  version : Nat
  entry_table_length : Nat
  entry_count : Nat
  free_space_table_length : Nat
  free_space_table_count : Nat
  data_offset : Nat
  entryTable : List XDBF_Entry
  strTblIndexes : Nat → Int
  strTbls : Nat → Option StrTbl
  map_images : Nat → Option Nat
  m_langID : Int

/-- The inert state left behind when `init()` fails: magic cleared, file
reference released, entry table empty, not valid. -/
def xdbfFailState : XdbfState where
  isValid := false
  fileOpen := false
  magic := 0
  version := 0
  entry_table_length := 0
  entry_count := 0
  free_space_table_length := 0
  free_space_table_count := 0
  data_offset := 0
  entryTable := []
  strTblIndexes := fun _ => -1
  strTbls := fun _ => none
  map_images := fun _ => none
  m_langID := 0

/-- Parse `n` 18-byte entry records starting at file offset 24, keeping
file byte order in the in-memory fields. -/
def readEntryTable (b : Nat → Nat) (n : Nat) : List XDBF_Entry :=
  (List.range n).map (fun i =>
    let base := 24 + i * 18
    { namespace_id := lload16 b base
      resource_id := lload64 b (base + 2)
      offset := lload32 b (base + 10)
      length := lload32 b (base + 14) })

/-- Loop of `initStrTblIndexes`: walk the entry table (stopping once
every language slot could have been seen), recording the first entry
index per string-table language.  The C++ keeps the index in an
`int16_t`; the table is bounded well below that in practice. -/
def initStrTblIndexesGo : List XDBF_Entry → Nat → Nat → (Nat → Int) → (Nat → Int)
  | [], _, _, acc => acc
  | e :: rest, idx, total, acc =>
    if total ≥ XDBF_LANGUAGE_MAX.toNat then acc
    else if e.namespace_id ≠ bswap16 XDBF_SPA_NAMESPACE_STRING_TABLE then
      initStrTblIndexesGo rest (idx+1) total acc
    else
      let langID := bswap64 e.resource_id
      if langID ≥ XDBF_LANGUAGE_MAX.toNat then
        initStrTblIndexesGo rest (idx+1) total acc
      else if acc langID < 0 then
        initStrTblIndexesGo rest (idx+1) (total+1)
          (fun l => if l = langID then Int.ofNat idx else acc l)
      else initStrTblIndexesGo rest (idx+1) total acc

/-- `Xbox360_XDBF_Private::initStrTblIndexes`: build the per-language
index into the entry table (first instance of a language wins, `-1`
marks an absent table). -/
def initStrTblIndexes (tbl : List XDBF_Entry) : Nat → Int :=
  initStrTblIndexesGo tbl 0 0 (fun _ => -1)

/-- `Xbox360_XDBF::init()`: read and validate the 24-byte header
(magic and version, in file byte order), byteswap the numeric fields,
compute the data start offset, reject an entry-table length of 1,048,576
or more as Invalid, then read and parse the whole entry table in one
pass and build the string-table language index. -/
def initXdbf (file : XdbfFile) : XdbfState :=
  if file.readLenAt 0 24 ≠ 24 then xdbfFailState
  else
    let b := file.byteAt
    let rawMagic := lload32 b 0
    let rawVersion := lload32 b 4
    if ¬ (rawMagic = bswap32 XDBF_MAGIC ∧ rawVersion = bswap32 XDBF_VERSION) then
      xdbfFailState
    else
      let entry_table_length := bswap32 (lload32 b 8)
      let entry_count := bswap32 (lload32 b 12)
      let free_space_table_length := bswap32 (lload32 b 16)
      let free_space_table_count := bswap32 (lload32 b 20)
      let data_offset := 24 + entry_table_length * 18 + free_space_table_length * 8
      if entry_table_length ≥ 1048576 then xdbfFailState
      else
        let sz := entry_table_length * 18
        if file.readLenAt 24 sz ≠ sz then xdbfFailState
        else
          let tbl := readEntryTable b entry_table_length
          { isValid := true
            fileOpen := true
            magic := rawMagic
            version := rawVersion
            entry_table_length := entry_table_length
            entry_count := entry_count
            free_space_table_length := free_space_table_length
            free_space_table_count := free_space_table_count
            data_offset := data_offset
            entryTable := tbl
            strTblIndexes := initStrTblIndexes tbl
            strTbls := fun _ => none
            map_images := fun _ => none
            m_langID := 0 }

/-- `Xbox360_XDBF_Private::loadStringTable`: range-check the language,
return the cached table if present, look up the indexed entry, reject a
declared size of at most the sub-header size or above 1 MiB before any
allocation or read, then read the blob and validate the embedded XSTR
magic/version; a successful load is cached. -/
def loadStringTable (file : XdbfFile) (st : XdbfState) (langID : Int) :
    Option StrTbl × XdbfState :=
  if langID ≤ XDBF_LANGUAGE_UNKNOWN ∨ langID ≥ XDBF_LANGUAGE_MAX then (none, st)
  else
    match st.strTbls langID.toNat with
    | some t => (some t, st)
    | none =>
      if ¬ st.fileOpen ∨ ¬ st.isValid then (none, st)
      else
        let idx := st.strTblIndexes langID.toNat
        if idx < 0 ∨ idx ≥ ((st.entryTable.length % 65536 : Nat) : Int) then (none, st)
        else
          match st.entryTable.get? idx.toNat with
          | none => (none, st)
          | some entry =>
            let str_tbl_sz := bswap32 entry.length
            if str_tbl_sz ≤ XDBF_XSTR_Header_SIZE ∨ str_tbl_sz > 1048576 then (none, st)
            else
              let addr := bswap32 entry.offset + st.data_offset
              if file.readLenAt addr str_tbl_sz ≠ str_tbl_sz then (none, st)
              else
                let tbl : StrTbl := ⟨str_tbl_sz, fun i => file.byteAt (addr + i)⟩
                if lload32 tbl.data 0 ≠ bswap32 XDBF_XSTR_MAGIC ∨
                    lload32 tbl.data 4 ≠ bswap32 XDBF_XSTR_VERSION then (none, st)
                else
                  (some tbl,
                    { st with strTbls :=
                        fun l => if l = langID.toNat then some tbl else st.strTbls l })

/-- Convert raw table bytes to characters (the tables are UTF-8; the
development only exercises ASCII content). -/
def bytesToCharList (data : Nat → Nat) (start len : Nat) : List Char :=
  (List.range len).map (fun i => Char.ofNat (data (start + i) % 256))

/-- Modelled from the spec: `dos2unix` of `TextFuncs` (implementation
not in the snapshot) re-encodes DOS line endings to UNIX ones. -/
def dos2unix : List Char → List Char
  | [] => []
  | '\r' :: '\n' :: rest => '\n' :: dos2unix rest
  | c :: rest => c :: dos2unix rest

/-- Record-scan loop of `loadString`: walk the variable-length
`{string_id : u16, length : u16, bytes}` records from the end of the
sub-header; on an ID match, bounds-check and convert the payload.  The
`fuel` argument only bounds the number of iterations; each iteration
advances the cursor by at least four bytes, so `fuel = size` is never
exhausted first. -/
def loadStringScan (data : Nat → Nat) (size : Nat) (sid : Nat) :
    Nat → Nat → String
  | _, 0 => ""
  | p, fuel + 1 =>
    if p < size then
      let id := lload16 data p
      let length := bswap16 (lload16 data (p + 2))
      if id = sid then
        if p + 4 + length ≤ size then
          ⟨dos2unix (bytesToCharList data (p + 4) length)⟩
        else ""
      else loadStringScan data size sid (p + 4 + length) fuel
    else ""

/-- `Xbox360_XDBF_Private::loadString`: fetch (or lazily load) the
language's string table and scan it for the byte-swapped string ID;
empty string when the language is out of range, the table cannot be
loaded, the ID is absent or the record is truncated. -/
def loadString (file : XdbfFile) (st : XdbfState) (langID : Int) (string_id : Nat) :
    String × XdbfState :=
  if langID < 0 ∨ langID ≥ XDBF_LANGUAGE_MAX then ("", st)
  else
    match (match st.strTbls langID.toNat with
      | some t => (some t, st)
      | none => loadStringTable file st langID) with
    | (none, st') => ("", st')
    | (some vec, st') =>
      (loadStringScan vec.data vec.size (bswap16 string_id)
        XDBF_XSTR_Header_SIZE vec.size, st')

/-- English-fallback tail of `getLanguageID`: try English unless it was
already one of the two candidate languages. -/
def getLanguageID_english (file : XdbfFile) (st : XdbfState)
    (langID langID_xstc : Int) : Int × XdbfState :=
  if langID ≠ XDBF_LANGUAGE_ENGLISH ∧ langID_xstc ≠ XDBF_LANGUAGE_ENGLISH then
    match loadStringTable file st XDBF_LANGUAGE_ENGLISH with
    | (some _, st1) => (XDBF_LANGUAGE_ENGLISH, { st1 with m_langID := XDBF_LANGUAGE_ENGLISH })
    | (none, st1) => (XDBF_LANGUAGE_UNKNOWN, st1)
  else (XDBF_LANGUAGE_UNKNOWN, st)

/-- XSTC step of `getLanguageID`: find and parse the default-language
metadata resource — any failure reports the unknown language — and try
its language's string table when it differs from the system language. -/
def getLanguageID_xstc (file : XdbfFile) (st : XdbfState) (langID : Int) :
    Int × XdbfState :=
  match findResource st.entryTable XDBF_SPA_NAMESPACE_METADATA XDBF_XSTC_MAGIC with
  | none => (XDBF_LANGUAGE_UNKNOWN, st)
  | some entry =>
    if bswap32 entry.length ≠ 16 then (XDBF_LANGUAGE_UNKNOWN, st)
    else
      let addr := bswap32 entry.offset + st.data_offset
      if file.readLenAt addr 16 ≠ 16 then (XDBF_LANGUAGE_UNKNOWN, st)
      else
        let b := fun i => file.byteAt (addr + i)
        if lload32 b 0 ≠ bswap32 XDBF_XSTC_MAGIC ∨
            lload32 b 4 ≠ bswap32 XDBF_XSTC_VERSION ∨
            lload32 b 8 ≠ bswap32 12 then (XDBF_LANGUAGE_UNKNOWN, st)
        else
          let langID_xstc : Int := Int.ofNat (bswap32 (lload32 b 12))
          if langID_xstc ≠ langID then
            if langID_xstc ≤ XDBF_LANGUAGE_UNKNOWN ∨ langID_xstc ≥ XDBF_LANGUAGE_MAX then
              (XDBF_LANGUAGE_UNKNOWN, st)
            else
              match loadStringTable file st langID_xstc with
              | (some _, st1) => (langID_xstc, { st1 with m_langID := langID_xstc })
              | (none, st1) => getLanguageID_english file st1 langID langID_xstc
          else getLanguageID_english file st langID langID_xstc

/-- `Xbox360_XDBF_Private::getLanguageID`: cached language if known,
else system language (when its string table loads), else the XSTC
default-language marker, else English. -/
def getLanguageID (file : XdbfFile) (st : XdbfState) : Int × XdbfState :=
  if st.m_langID ≠ XDBF_LANGUAGE_UNKNOWN then (st.m_langID, st)
  else
    let langID := file.systemLanguage
    if XDBF_LANGUAGE_UNKNOWN < langID ∧ langID < XDBF_LANGUAGE_MAX then
      match loadStringTable file st langID with
      | (some _, st1) => (langID, { st1 with m_langID := langID })
      | (none, st1) => getLanguageID_xstc file st1 langID
    else getLanguageID_xstc file st langID

/-- `Xbox360_XDBF::getString(Property::Title)`: the title string in the
language `getLanguageID` selects. -/
def getString_title (file : XdbfFile) (st : XdbfState) : String :=
  match getLanguageID file st with
  | (lang, st1) => (loadString file st1 lang XDBF_ID_TITLE).1

/-- Per-entry description fallback of `addFields_achievements` /
`addFields_avatarAwards`: a string missing in the requested language is
looked up again in English. -/
def loadStringEnFallback (file : XdbfFile) (st : XdbfState) (langID : Int)
    (string_id : Nat) : String × XdbfState :=
  match loadString file st langID string_id with
  | (desc, st1) =>
    if desc = "" ∧ langID ≠ XDBF_LANGUAGE_ENGLISH then
      loadString file st1 XDBF_LANGUAGE_ENGLISH string_id
    else (desc, st1)

/-- `Xbox360_XDBF_Private::loadImage`: cached image if present, else
look the resource up by (image namespace, id), reject a declared length
below 16 bytes or above 1 MiB before any allocation or read, then read
and decode the PNG bytes (decoder external), caching a success. -/
def loadImage (file : XdbfFile) (st : XdbfState) (image_id : Nat) :
    Option Nat × XdbfState :=
  match st.map_images image_id with
  | some img => (some img, st)
  | none =>
    if st.entryTable.isEmpty then (none, st)
    else if ¬ st.fileOpen ∨ ¬ st.isValid then (none, st)
    else
      match findResource st.entryTable XDBF_SPA_NAMESPACE_IMAGE image_id with
      | none => (none, st)
      | some entry =>
        let addr := bswap32 entry.offset + st.data_offset
        let length := bswap32 entry.length
        if length < 16 ∨ length > 1048576 then (none, st)
        else if file.readLenAt addr length ≠ length then (none, st)
        else if file.pngDecodeOk addr length then
          (some image_id,
            { st with map_images :=
                fun i => if i = image_id then some image_id else st.map_images i })
        else (none, st)

/-! ### The claim-side fallback chain (claim C6's wording)

The claim describes the string lookup as: requested language, then the
container's embedded default-language marker, then English, then the
first language with any loaded string table, stopping at the first
language that returns a non-empty string.
-/

/-- The embedded default-language marker, read from the XSTC metadata
resource, when present and valid. -/
def xstcDefaultLang (file : XdbfFile) (st : XdbfState) : Option Int :=
  match findResource st.entryTable XDBF_SPA_NAMESPACE_METADATA XDBF_XSTC_MAGIC with
  | none => none
  | some entry =>
    if bswap32 entry.length ≠ 16 then none
    else
      let addr := bswap32 entry.offset + st.data_offset
      if file.readLenAt addr 16 ≠ 16 then none
      else
        let b := fun i => file.byteAt (addr + i)
        if lload32 b 0 ≠ bswap32 XDBF_XSTC_MAGIC ∨
            lload32 b 4 ≠ bswap32 XDBF_XSTC_VERSION ∨
            lload32 b 8 ≠ bswap32 12 then none
        else some (Int.ofNat (bswap32 (lload32 b 12)))

/-- The first language slot whose string table loads, `0` if none. -/
def firstLoadableLang (file : XdbfFile) (st : XdbfState) : Int :=
  match (List.range 8).find?
      (fun i => ((loadStringTable file st (Int.ofNat (i+1))).1).isSome) with
  | some i => Int.ofNat (i + 1)
  | none => 0

/-- Walk the claim-side language chain, stopping at the first language
that returns a non-empty string. -/
def chainFirstNonEmpty (file : XdbfFile) (st : XdbfState) (sid : Nat) :
    List Int → String
  | [] => ""
  | l :: ls =>
    let s := (loadString file st l sid).1
    if s ≠ "" then s else chainFirstNonEmpty file st sid ls

/-- The fallback chain exactly as the claim words it: requested
language → embedded default-language marker → English → first language
with any loaded string table. -/
def claimFallbackString (file : XdbfFile) (st : XdbfState) (sid : Nat) : String :=
  let cands : List Int :=
    [file.systemLanguage]
      ++ (match xstcDefaultLang file st with
          | some l => [l]
          | none => [])
      ++ [XDBF_LANGUAGE_ENGLISH, firstLoadableLang file st]
  chainFirstNonEmpty file st sid cands

/-! ### Concrete XDBF containers used to exercise the parser -/

/-- Interpret a byte list as a memory, zero beyond the end. -/
def bytesOf (l : List Nat) : Nat → Nat := fun i => l.getD i 0

/-- A well-formed container with a Japanese and an English string table
plus an XSTC marker naming Japanese as the default language.  The
English table holds the title ID `0x8000` (`"Hello"`); the Japanese
table holds only the unrelated ID `0x0001`. -/
def xdbfBytesJE : List Nat :=
  [0x58,0x44,0x42,0x46, 0,1,0,0, 0,0,0,3, 0,0,0,3, 0,0,0,0, 0,0,0,0,
   0,3, 0,0,0,0,0,0,0,1, 0,0,0,0, 0,0,0,23,
   0,3, 0,0,0,0,0,0,0,2, 0,0,0,23, 0,0,0,19,
   0,1, 0,0,0,0,0x58,0x53,0x54,0x43, 0,0,0,42, 0,0,0,16,
   0x58,0x53,0x54,0x52, 0,0,0,1, 0,0,0,9, 0,1,
   0x80,0, 0,5, 0x48,0x65,0x6C,0x6C,0x6F,
   0x58,0x53,0x54,0x52, 0,0,0,1, 0,0,0,5, 0,1,
   0,1, 0,1, 0x4A,
   0x58,0x53,0x54,0x43, 0,0,0,1, 0,0,0,12, 0,0,0,2]

/-- The Japanese/English container on a host whose system language is
German. -/
def xdbfFileJE : XdbfFile where
  byteAt := bytesOf xdbfBytesJE
  readLenAt := fun _ n => n
  systemLanguage := XDBF_LANGUAGE_GERMAN
  pngDecodeOk := fun _ _ => true

/-- A container with only an English string table and an XSTC marker
naming French (whose table is absent) as the default language. -/
def xdbfBytesEnX : List Nat :=
  [0x58,0x44,0x42,0x46, 0,1,0,0, 0,0,0,2, 0,0,0,2, 0,0,0,0, 0,0,0,0,
   0,3, 0,0,0,0,0,0,0,1, 0,0,0,0, 0,0,0,23,
   0,1, 0,0,0,0,0x58,0x53,0x54,0x43, 0,0,0,23, 0,0,0,16,
   0x58,0x53,0x54,0x52, 0,0,0,1, 0,0,0,9, 0,1,
   0x80,0, 0,5, 0x48,0x65,0x6C,0x6C,0x6F,
   0x58,0x53,0x54,0x43, 0,0,0,1, 0,0,0,12, 0,0,0,4]

/-- The English-only container on a German-language host. -/
def xdbfFileEnX : XdbfFile where
  byteAt := bytesOf xdbfBytesEnX
  readLenAt := fun _ n => n
  systemLanguage := XDBF_LANGUAGE_GERMAN
  pngDecodeOk := fun _ _ => true

/-- A container holding only a Korean string table (with the title ID
`0x8000` mapped to `"K"`) and no XSTC marker resource. -/
def xdbfBytesKo : List Nat :=
  [0x58,0x44,0x42,0x46, 0,1,0,0, 0,0,0,1, 0,0,0,1, 0,0,0,0, 0,0,0,0,
   0,3, 0,0,0,0,0,0,0,7, 0,0,0,0, 0,0,0,19,
   0x58,0x53,0x54,0x52, 0,0,0,1, 0,0,0,5, 0,1,
   0x80,0, 0,1, 0x4B]

/-- The Korean-only container on a German-language host. -/
def xdbfFileKo : XdbfFile where
  byteAt := bytesOf xdbfBytesKo
  readLenAt := fun _ n => n
  systemLanguage := XDBF_LANGUAGE_GERMAN
  pngDecodeOk := fun _ _ => true

/-- A fully readable container whose valid header declares an
entry-table length of exactly 1,048,576 entries. -/
def xdbfFileBigTable : XdbfFile where
  byteAt := bytesOf
    [0x58,0x44,0x42,0x46, 0,1,0,0, 0,0x10,0,0, 0,0,0,0, 0,0,0,0, 0,0,0,0]
  readLenAt := fun _ n => n
  systemLanguage := XDBF_LANGUAGE_ENGLISH
  pngDecodeOk := fun _ _ => true

/-- A file whose reads always succeed in full (used where the point is
that no read is needed at all). -/
def xdbfDummyFile : XdbfFile where
  byteAt := fun _ => 0
  readLenAt := fun _ n => n
  systemLanguage := XDBF_LANGUAGE_ENGLISH
  pngDecodeOk := fun _ _ => true

/-- A string-table entry (English) declaring a 2,000,000-byte table. -/
def xdbfOversizedStrEntry : XDBF_Entry :=
  ⟨bswap16 XDBF_SPA_NAMESPACE_STRING_TABLE, bswap64 1, 0, bswap32 2000000⟩

/-- An image entry (resource ID 77) declaring 2,000,000 bytes. -/
def xdbfOversizedImgEntry : XDBF_Entry :=
  ⟨bswap16 XDBF_SPA_NAMESPACE_IMAGE, bswap64 77, 0, bswap32 2000000⟩

/-- A valid open handler state whose entry table declares the two
oversized resources above (English string table at index 0). -/
def xdbfOversizedState : XdbfState where
  isValid := true
  fileOpen := true
  magic := bswap32 XDBF_MAGIC
  version := bswap32 XDBF_VERSION
  entry_table_length := 2
  entry_count := 2
  free_space_table_length := 0
  free_space_table_count := 0
  data_offset := 60
  entryTable := [xdbfOversizedStrEntry, xdbfOversizedImgEntry]
  strTblIndexes := fun l => if l = 1 then 0 else -1
  strTbls := fun _ => none
  map_images := fun _ => none
  m_langID := 0

/-! ## List helper: first-match decomposition of `List.find?` -/

/-- A successful `List.find?` splits the list at the first satisfying
element: everything before it fails the predicate. -/
theorem find?_eq_some_split {α : Type} {p : α → Bool} :
    ∀ {l : List α} {a : α}, l.find? p = some a →
      p a = true ∧ ∃ pre post, l = pre ++ a :: post ∧ ∀ x ∈ pre, p x = false := by
  intro l
  induction l with
  | nil => intro a h; simp at h
  | cons b t ih =>
    intro a h
    by_cases hb : p b
    · rw [List.find?_cons_of_pos _ hb] at h
      cases h
      exact ⟨hb, [], t, rfl, by simp⟩
    · rw [List.find?_cons_of_neg _ hb] at h
      obtain ⟨hpa, pre, post, rfl, hpre⟩ := ih h
      refine ⟨hpa, b :: pre, post, rfl, ?_⟩
      intro x hx
      rcases List.mem_cons.mp hx with rfl | hx
      · exact Bool.of_not_eq_true hb
      · exact hpre x hx

/-! ## Theorems for claims C4 and C5 -/

/-- C4: `findResource` returns the first entry (in table order) whose
stored file-byte-order composite key equals the byte-swapped query key
(so both key fields must match); it returns `none` when no entry matches
both fields, and on an empty entry table. -/
theorem claim4_findResource_first_match (tbl : List XDBF_Entry) (ns rid : Nat) :
    (findResource [] ns rid = none)
    ∧ (∀ e, findResource tbl ns rid = some e →
        e.namespace_id = bswap16 ns ∧ e.resource_id = bswap64 rid ∧
        ∃ pre post, tbl = pre ++ e :: post ∧
          ∀ x ∈ pre, ¬ (x.namespace_id = bswap16 ns ∧ x.resource_id = bswap64 rid))
    ∧ ((∀ e ∈ tbl, e.namespace_id ≠ bswap16 ns ∨ e.resource_id ≠ bswap64 rid) →
        findResource tbl ns rid = none) := by
  refine ⟨rfl, ?_, ?_⟩
  · intro e h
    unfold findResource at h
    by_cases hemp : tbl.isEmpty
    · simp [hemp] at h
    · simp only [hemp, if_false] at h
      obtain ⟨hpe, pre, post, rfl, hpre⟩ := find?_eq_some_split h
      simp only [Bool.and_eq_true, beq_iff_eq] at hpe
      refine ⟨hpe.1, hpe.2, pre, post, rfl, ?_⟩
      intro x hx hcontra
      have := hpre x hx
      simp only [Bool.and_eq_true, beq_iff_eq] at this
      rw [hcontra.1, hcontra.2] at this
      simp at this
  · intro hall
    unfold findResource
    by_cases hemp : tbl.isEmpty
    · simp [hemp]
    · simp only [hemp, Bool.false_eq_true, if_false]
      rw [List.find?_eq_none]
      intro e he
      simp only [Bool.and_eq_true, beq_iff_eq, not_and]
      intro h1 h2
      rcases hall e he with h | h
      · exact absurd h1 h
      · exact absurd h2 h

/-- C4 witness: a two-entry table where the second entry collides with
the query in the namespace field only; the lookup finds the first entry,
and a table whose sole entry matches in one field returns `none`. -/
theorem claim4_witness :
    ((⟨512, 360287970189639680, 0, 10⟩ : XDBF_Entry).namespace_id = bswap16 2 ∧
      (⟨512, 360287970189639680, 0, 10⟩ : XDBF_Entry).resource_id = bswap64 5 ∧
      ∃ pre post,
        ([⟨512, 360287970189639680, 0, 10⟩, ⟨512, 7, 4, 4⟩] : List XDBF_Entry) =
          pre ++ (⟨512, 360287970189639680, 0, 10⟩ : XDBF_Entry) :: post ∧
        ∀ x ∈ pre, ¬ (x.namespace_id = bswap16 2 ∧ x.resource_id = bswap64 5))
    ∧ findResource [⟨512, 7, 0, 0⟩] 2 5 = none := by
  constructor
  · exact (claim4_findResource_first_match
      [⟨512, 360287970189639680, 0, 10⟩, ⟨512, 7, 4, 4⟩] 2 5).2.1
      ⟨512, 360287970189639680, 0, 10⟩ (by decide)
  · exact (claim4_findResource_first_match [⟨512, 7, 0, 0⟩] 2 5).2.2 (by decide)

/-! ### Stage-scan / candidate-list correspondence lemmas -/

/-- A run of failed candidates contributes nothing. -/
theorem firstSome_replicate_none (n : Nat) :
    firstSome (List.replicate n none) = none := by
  induction n with
  | zero => rfl
  | succ m ih => simpa [List.replicate, firstSome] using ih

/-- `firstSome` scans the left list first. -/
theorem firstSome_append (l₁ l₂ : List (Option Handler)) :
    firstSome (l₁ ++ l₂) =
      (match firstSome l₁ with
      | some h => some h
      | none => firstSome l₂) := by
  induction l₁ with
  | nil => rfl
  | cons o rest ih =>
    cases o with
    | some h => rfl
    | none => simpa [firstSome] using ih

/-- The magic-stage loop returns the first successful magic candidate. -/
theorem scanMagic_eq_firstSome (file : IRpFile) (attrs : Nat) (st : ScanState) :
    ∀ (l : List RomDataFns) (idx : Nat),
      scanMagic file attrs st l idx = firstSome (magicCandidates file attrs st l idx) := by
  intro l
  induction l with
  | nil => intro idx; rfl
  | cons fns rest ih =>
    intro idx
    by_cases h1 : fns.attrs &&& attrs = attrs
    · by_cases h2 : be32At st.buf (fns.address / 4 * 4) = fns.size
      · by_cases h3 : fns.isRomSupported (infoOf file st) ≥ 0
        · by_cases h4 : fns.newRomDataValid
          · simp [scanMagic, magicCandidates, firstSome, h1, h2, h3, h4]
          · simp [scanMagic, magicCandidates, firstSome, h1, h2, h3, h4, ih]
        · simp [scanMagic, magicCandidates, firstSome, h1, h2, h3, ih]
      · simp [scanMagic, magicCandidates, firstSome, h1, h2, ih]
    · simp [scanMagic, magicCandidates, firstSome, h1, ih]

set_option maxHeartbeats 2000000 in
/-- The header-stage loop returns the first successful header candidate. -/
theorem scanHeader_fst_eq (file : IRpFile) (attrs : Nat) :
    ∀ (l : List RomDataFns) (idx : Nat) (st : ScanState),
      (scanHeader file attrs l idx st).1 =
        firstSome (headerCandidates file attrs l idx st) := by
  intro l
  induction l with
  | nil => intro idx st; rfl
  | cons fns rest ih =>
    intro idx st
    cases hext : file.ext with
    | none =>
      simp only [scanHeader, headerCandidates, hext]
      split_ifs <;> first
        | (split <;> simp_all [firstSome])
        | simp_all [firstSome, firstSome_replicate_none]
    | some e =>
      simp only [scanHeader, headerCandidates, hext]
      split_ifs <;> first
        | (split <;> simp_all [firstSome])
        | simp_all [firstSome, firstSome_replicate_none]

set_option maxHeartbeats 2000000 in
/-- When the header-stage loop finds nothing, it leaves exactly the
threaded window state behind. -/
theorem scanHeader_snd_eq (file : IRpFile) (attrs : Nat) :
    ∀ (l : List RomDataFns) (idx : Nat) (st : ScanState),
      (scanHeader file attrs l idx st).1 = none →
        (scanHeader file attrs l idx st).2 = headerFinalState file attrs l st := by
  intro l
  induction l with
  | nil => intro idx st _; rfl
  | cons fns rest ih =>
    intro idx st
    cases hext : file.ext with
    | none =>
      simp only [scanHeader, headerFinalState, hext]
      split_ifs <;> intro h <;> first
        | rfl
        | exact ih _ _ h
        | (split at h <;> first | simp at h | exact ih _ _ h)
        | simp at h
    | some e =>
      simp only [scanHeader, headerFinalState, hext]
      split_ifs <;> intro h <;> first
        | rfl
        | exact ih _ _ h
        | (split at h <;> first | simp at h | exact ih _ _ h)
        | simp at h

set_option maxHeartbeats 2000000 in
/-- The footer-stage loop returns the first successful footer candidate. -/
theorem scanFooter_eq_firstSome (file : IRpFile) (attrs : Nat) :
    ∀ (l : List RomDataFns) (idx : Nat) (rf : Bool) (st : ScanState),
      scanFooter file attrs l idx rf st =
        firstSome (footerCandidates file attrs l idx rf st) := by
  intro l
  induction l with
  | nil => intro idx rf st; rfl
  | cons fns rest ih =>
    intro idx rf st
    cases rf <;>
      (simp only [scanFooter, footerCandidates]
       split_ifs <;> first
         | (split <;> simp_all [firstSome])
         | simp_all [firstSome, firstSome_replicate_none])

set_option maxHeartbeats 2000000 in
/-- Once the trailing window has been read, the footer loop never reads
it again. -/
theorem scanFooterReads_true (file : IRpFile) (attrs : Nat) :
    ∀ (l : List RomDataFns) (idx : Nat) (st : ScanState),
      scanFooterReads file attrs l idx true st = 0 := by
  intro l
  induction l with
  | nil => intro idx st; rfl
  | cons fns rest ih =>
    intro idx st
    simp only [scanFooterReads]
    split_ifs <;> first
      | (split <;> simp_all)
      | simp_all

set_option maxHeartbeats 2000000 in
/-- The footer loop reads the trailing window at most once. -/
theorem scanFooterReads_le_one (file : IRpFile) (attrs : Nat) :
    ∀ (l : List RomDataFns) (idx : Nat) (rf : Bool) (st : ScanState),
      scanFooterReads file attrs l idx rf st ≤ 1 := by
  intro l
  induction l with
  | nil => intro idx rf st; exact Nat.zero_le 1
  | cons fns rest ih =>
    intro idx rf st
    cases rf <;>
      (simp only [scanFooterReads]
       split_ifs <;> first
         | (split <;> simp_all [scanFooterReads_true])
         | simp_all [scanFooterReads_true])

set_option maxHeartbeats 2000000 in
/-- Without a `.vb` extension the footer loop never reads the trailing
window. -/
theorem scanFooterReads_no_vb (file : IRpFile) (attrs : Nat)
    (hvb : extIsVb file = false) :
    ∀ (l : List RomDataFns) (idx : Nat) (rf : Bool) (st : ScanState),
      scanFooterReads file attrs l idx rf st = 0 := by
  intro l
  induction l with
  | nil => intro idx rf st; rfl
  | cons fns rest ih =>
    intro idx rf st
    cases rf <;>
      (simp only [scanFooterReads]
       split_ifs <;> simp_all [ih])

/-- A successful `tryFns` hands back the handler of the tried
descriptor. -/
theorem tryFns_eq_some (file : IRpFile) (fns : RomDataFns) (st : ScanState)
    (stage : Stage) (idx : Nat) (h : Handler) :
    tryFns file fns st stage idx = some h → h = .fromDescriptor stage idx := by
  unfold tryFns
  split_ifs <;> intro hv <;> simp_all

/-- The Dreamcast paired-file special case only ever produces the
pair-constructed handler. -/
theorem vmsSpecialTry_eq_some (file : IRpFile) (h : Handler) :
    vmsSpecialTry file = some h → h = .dreamcastSavePair := by
  intro hv
  unfold vmsSpecialTry openDreamcastVMSandVMI at hv
  cases hext : file.ext with
  | none => rw [hext] at hv; exact absurd hv (by simp)
  | some e =>
    rw [hext] at hv
    split_ifs at hv <;> simp_all

/-- Index arithmetic for walking a descriptor table tail. -/
theorem get?_cons_succ_sub {α : Type} (x : α) (l : List α) (idx j : Nat)
    (hj : idx + 1 ≤ j) : (x :: l).get? (j - idx) = l.get? (j - (idx + 1)) := by
  have h : j - idx = (j - (idx + 1)) + 1 := by omega
  rw [h]
  rfl

/-- Replacing magic-stage descriptors whose 32-bit magic compare fails
(keeping attribute, address and magic fields) cannot change the magic
scan: `isRomSupported` and the construction are never consulted for
them. -/
theorem scanMagic_magicAgree_congr (file : IRpFile) (attrs : Nat) (st : ScanState)
    {l l' : List RomDataFns} (hag : List.Forall₂ (MagicAgree st.buf) l l') :
    ∀ idx, scanMagic file attrs st l idx = scanMagic file attrs st l' idx := by
  induction hag with
  | nil => intro idx; rfl
  | @cons a b tl tl' hab htail ih =>
    intro idx
    obtain ⟨hattrs, haddr, hsize, himpl⟩ := hab
    by_cases h2 : be32At st.buf (a.address / 4 * 4) = a.size
    · obtain rfl := himpl h2
      simp only [scanMagic, ih]
    · have h2' : ¬ be32At st.buf (b.address / 4 * 4) = b.size := by
        rw [← haddr, ← hsize]; exact h2
      by_cases h1 : a.attrs &&& attrs = attrs
      · have h1' : b.attrs &&& attrs = attrs := by rw [← hattrs]; exact h1
        simp [scanMagic, h1, h1', h2, h2', ih]
      · have h1' : ¬ b.attrs &&& attrs = attrs := by rw [← hattrs]; exact h1
        simp [scanMagic, h1, h1', ih]

/-- Replacing descriptors the attribute filter skips (keeping their
attribute bits) cannot change the magic scan. -/
theorem scanMagic_skipAgree_congr (file : IRpFile) (attrs : Nat) (st : ScanState)
    {l l' : List RomDataFns} (hag : List.Forall₂ (SkipAgree attrs) l l') :
    ∀ idx, scanMagic file attrs st l idx = scanMagic file attrs st l' idx := by
  induction hag with
  | nil => intro idx; rfl
  | @cons a b tl tl' hab htail ih =>
    intro idx
    obtain ⟨hattrs, himpl⟩ := hab
    by_cases h1 : a.attrs &&& attrs = attrs
    · obtain rfl := himpl h1
      simp only [scanMagic, ih]
    · have h1' : ¬ b.attrs &&& attrs = attrs := by rw [← hattrs]; exact h1
      simp [scanMagic, h1, h1', ih]

/-- Replacing descriptors the attribute filter skips cannot change the
header scan (result or final window state). -/
theorem scanHeader_skipAgree_congr (file : IRpFile) (attrs : Nat)
    {l l' : List RomDataFns} (hag : List.Forall₂ (SkipAgree attrs) l l') :
    ∀ idx st, scanHeader file attrs l idx st = scanHeader file attrs l' idx st := by
  induction hag with
  | nil => intro idx st; rfl
  | @cons a b tl tl' hab htail ih =>
    intro idx st
    obtain ⟨hattrs, himpl⟩ := hab
    by_cases h1 : a.attrs &&& attrs = attrs
    · obtain rfl := himpl h1
      simp only [scanHeader, ih]
    · have h1' : ¬ b.attrs &&& attrs = attrs := by rw [← hattrs]; exact h1
      simp [scanHeader, h1, h1', ih]

/-- Replacing descriptors the attribute filter skips cannot change the
footer scan. -/
theorem scanFooter_skipAgree_congr (file : IRpFile) (attrs : Nat)
    {l l' : List RomDataFns} (hag : List.Forall₂ (SkipAgree attrs) l l') :
    ∀ idx rf st, scanFooter file attrs l idx rf st = scanFooter file attrs l' idx rf st := by
  induction hag with
  | nil => intro idx rf st; rfl
  | @cons a b tl tl' hab htail ih =>
    intro idx rf st
    obtain ⟨hattrs, himpl⟩ := hab
    by_cases h1 : a.attrs &&& attrs = attrs
    · obtain rfl := himpl h1
      simp only [scanFooter, ih]
    · have h1' : ¬ b.attrs &&& attrs = attrs := by rw [← hattrs]; exact h1
      simp [scanFooter, h1, h1', ih]

/-- A handler returned by the magic scan comes from the descriptor at
its index, and that descriptor passed the attribute filter. -/
theorem scanMagic_attrs_of_some (file : IRpFile) (attrs : Nat) (st : ScanState) :
    ∀ (l : List RomDataFns) (idx : Nat) (h : Handler),
      scanMagic file attrs st l idx = some h →
      ∃ j fns, h = .fromDescriptor .magic j ∧ idx ≤ j ∧
        l.get? (j - idx) = some fns ∧ fns.attrs &&& attrs = attrs := by
  intro l
  induction l with
  | nil => intro idx h hs; simp [scanMagic] at hs
  | cons fns rest ih =>
    intro idx h hs
    by_cases h1 : fns.attrs &&& attrs = attrs
    · by_cases h2 : be32At st.buf (fns.address / 4 * 4) = fns.size
      · by_cases h3 : fns.isRomSupported (infoOf file st) ≥ 0
        · by_cases h4 : fns.newRomDataValid
          · refine ⟨idx, fns, ?_, Nat.le_refl idx, by simp, h1⟩
            simp [scanMagic, h1, h2, h3, h4] at hs
            exact hs.symm
          · simp only [scanMagic, h1, h2, h3, h4] at hs
            simp at hs
            obtain ⟨j, g, hh, hj, hget, ha⟩ := ih (idx+1) h hs
            exact ⟨j, g, hh, by omega,
              by rw [get?_cons_succ_sub _ _ _ _ hj]; exact hget, ha⟩
        · simp only [scanMagic] at hs
          simp [h1, h2, h3] at hs
          obtain ⟨j, g, hh, hj, hget, ha⟩ := ih (idx+1) h hs
          exact ⟨j, g, hh, by omega,
            by rw [get?_cons_succ_sub _ _ _ _ hj]; exact hget, ha⟩
      · simp only [scanMagic] at hs
        simp [h1, h2] at hs
        obtain ⟨j, g, hh, hj, hget, ha⟩ := ih (idx+1) h hs
        exact ⟨j, g, hh, by omega,
          by rw [get?_cons_succ_sub _ _ _ _ hj]; exact hget, ha⟩
    · simp only [scanMagic] at hs
      simp [h1] at hs
      obtain ⟨j, g, hh, hj, hget, ha⟩ := ih (idx+1) h hs
      exact ⟨j, g, hh, by omega,
        by rw [get?_cons_succ_sub _ _ _ _ hj]; exact hget, ha⟩

set_option maxHeartbeats 2000000 in
/-- A handler returned by the header scan comes from the descriptor at
its index, and that descriptor passed the attribute filter. -/
theorem scanHeader_attrs_of_some (file : IRpFile) (attrs : Nat) :
    ∀ (l : List RomDataFns) (idx : Nat) (st : ScanState) (h : Handler),
      (scanHeader file attrs l idx st).1 = some h →
      ∃ j fns, h = .fromDescriptor .header j ∧ idx ≤ j ∧
        l.get? (j - idx) = some fns ∧ fns.attrs &&& attrs = attrs := by
  intro l
  induction l with
  | nil => intro idx st h hs; simp [scanHeader] at hs
  | cons fns rest ih =>
    intro idx st h hs
    by_cases h1 : (fns.attrs &&& attrs != attrs) = true
    · simp only [scanHeader, if_pos h1] at hs
      obtain ⟨j, g, hh, hj, hget, ha⟩ := ih (idx+1) st h hs
      exact ⟨j, g, hh, by omega,
        by rw [get?_cons_succ_sub _ _ _ _ hj]; exact hget, ha⟩
    · have hpass : fns.attrs &&& attrs = attrs := by simpa using h1
      simp only [scanHeader, if_neg h1] at hs
      cases hext : file.ext with
      | none =>
        simp only [hext] at hs
        split_ifs at hs <;> (try split_ifs at hs) <;> first
          | (split at hs <;> (try split at hs) <;> first
              | (obtain ⟨j, g, hh, hj, hget, ha⟩ := ih _ _ _ hs
                 exact ⟨j, g, hh, by omega,
                   by rw [get?_cons_succ_sub _ _ _ _ hj]; exact hget, ha⟩)
              | (rename_i hX heq
                 simp at hs
                 subst hs
                 exact ⟨idx, fns, tryFns_eq_some _ _ _ _ _ _ heq,
                   Nat.le_refl idx, by simp, hpass⟩)
              | simp at hs)
          | (obtain ⟨j, g, hh, hj, hget, ha⟩ := ih _ _ _ hs
             exact ⟨j, g, hh, by omega,
               by rw [get?_cons_succ_sub _ _ _ _ hj]; exact hget, ha⟩)
          | simp at hs
      | some e =>
        simp only [hext] at hs
        split_ifs at hs <;> (try split_ifs at hs) <;> first
          | (split at hs <;> (try split at hs) <;> first
              | (obtain ⟨j, g, hh, hj, hget, ha⟩ := ih _ _ _ hs
                 exact ⟨j, g, hh, by omega,
                   by rw [get?_cons_succ_sub _ _ _ _ hj]; exact hget, ha⟩)
              | (rename_i hX heq
                 simp at hs
                 subst hs
                 exact ⟨idx, fns, tryFns_eq_some _ _ _ _ _ _ heq,
                   Nat.le_refl idx, by simp, hpass⟩)
              | simp at hs)
          | (obtain ⟨j, g, hh, hj, hget, ha⟩ := ih _ _ _ hs
             exact ⟨j, g, hh, by omega,
               by rw [get?_cons_succ_sub _ _ _ _ hj]; exact hget, ha⟩)
          | simp at hs

set_option maxHeartbeats 2000000 in
/-- A handler returned by the footer scan comes from the descriptor at
its index, and that descriptor passed the attribute filter. -/
theorem scanFooter_attrs_of_some (file : IRpFile) (attrs : Nat) :
    ∀ (l : List RomDataFns) (idx : Nat) (rf : Bool) (st : ScanState) (h : Handler),
      scanFooter file attrs l idx rf st = some h →
      ∃ j fns, h = .fromDescriptor .footer j ∧ idx ≤ j ∧
        l.get? (j - idx) = some fns ∧ fns.attrs &&& attrs = attrs := by
  intro l
  induction l with
  | nil => intro idx rf st h hs; simp [scanFooter] at hs
  | cons fns rest ih =>
    intro idx rf st h hs
    by_cases h1 : (fns.attrs &&& attrs != attrs) = true
    · simp only [scanFooter, if_pos h1] at hs
      obtain ⟨j, g, hh, hj, hget, ha⟩ := ih (idx+1) rf st h hs
      exact ⟨j, g, hh, by omega,
        by rw [get?_cons_succ_sub _ _ _ _ hj]; exact hget, ha⟩
    · have hpass : fns.attrs &&& attrs = attrs := by simpa using h1
      simp only [scanFooter, if_neg h1] at hs
      split_ifs at hs <;> (try split_ifs at hs) <;> first
        | (split at hs <;> (try split at hs) <;> first
            | (rename_i hX heq
               simp at hs
               subst hs
               exact ⟨idx, fns, tryFns_eq_some _ _ _ _ _ _ heq,
                 Nat.le_refl idx, by simp, hpass⟩)
            | (obtain ⟨j, g, hh, hj, hget, ha⟩ := ih _ _ _ _ hs
               exact ⟨j, g, hh, by omega,
                 by rw [get?_cons_succ_sub _ _ _ _ hj]; exact hget, ha⟩)
            | simp at hs)
        | (obtain ⟨j, g, hh, hj, hget, ha⟩ := ih _ _ _ _ hs
           exact ⟨j, g, hh, by omega,
             by rw [get?_cons_succ_sub _ _ _ _ hj]; exact hget, ha⟩)
        | simp at hs

set_option maxHeartbeats 2000000 in
/-- C1 (amended): provided the initial header-window read returns at
least one byte and the Dreamcast paired-file special case does not
return a handler, `create` returns the handler of the first catalog
descriptor — magic stage, then header stage, then footer stage, each in
table order — whose check succeeds, whose `is_supported` predicate
accepts, and whose constructed handler reports Valid (`createClaim`);
handlers that construct but report Invalid are discarded and scanning
continues, and if no descriptor yields a Valid handler the result is
null.  Moreover, in the magic stage a descriptor whose big-endian
32-bit magic compare fails is never consulted further: its
`is_supported` predicate and construction outcome can be replaced
arbitrarily without changing the result. -/
theorem claim1_amended_create_staged_first_valid (cat : Catalog) (file : IRpFile)
    (attrs : Nat) (hread : file.readLen 0 4352 ≠ 0)
    (hvms : vmsSpecialTry file = none) :
    create cat file attrs = createClaim cat file attrs
    ∧ (∀ l', List.Forall₂ (MagicAgree (initialBuf file)) cat.magicFns l' →
        create cat file attrs = create ⟨l', cat.headerFns, cat.footerFns⟩ file attrs) := by
  constructor
  · have h0 : ¬ file.readLen 0 4352 = 0 := hread
    simp only [create, createClaim, hvms, if_neg h0]
    rw [firstSome_append, ← scanMagic_eq_firstSome]
    cases hm : scanMagic file attrs ⟨0, file.readLen 0 4352, initialBuf file⟩
        cat.magicFns 0 with
    | some h => rfl
    | none =>
      rw [firstSome_append, ← scanHeader_fst_eq]
      rcases hp : scanHeader file attrs cat.headerFns 0
          ⟨0, file.readLen 0 4352, initialBuf file⟩ with ⟨r, st1⟩
      cases r with
      | some h => rfl
      | none =>
        by_cases hbig : file.szFile > 1073741824
        · simp [hbig, firstSome]
        · have hsnd := scanHeader_snd_eq file attrs cat.headerFns 0
            ⟨0, file.readLen 0 4352, initialBuf file⟩ (by rw [hp])
          rw [hp] at hsnd
          have hst : st1 = headerFinalState file attrs cat.headerFns
              ⟨0, file.readLen 0 4352, initialBuf file⟩ := hsnd
          simp only [if_neg hbig]
          rw [scanFooter_eq_firstSome, hst]
  · intro l' hag
    simp only [create]
    rw [scanMagic_magicAgree_congr file attrs
      ⟨0, file.readLen 0 4352, initialBuf file⟩ hag 0]

/-- C1 witness: on a concrete zero-filled 200-byte file with a
one-descriptor catalog, the staged scan and the claim-side first-match
description coincide. -/
theorem claim1_witness :
    create sampleCat sampleFile 0 = createClaim sampleCat sampleFile 0 :=
  (claim1_amended_create_staged_first_valid sampleCat sampleFile 0
    (by decide) rfl).1

/-- C1 counterexample: a 108-byte `.vms` file whose Dreamcast sibling
opens and validates is handled by the paired-file special case, so
`create` returns a handler even under the empty catalog, where no
catalog descriptor yields a Valid handler and the claim as stated
predicts null. -/
theorem claim1_counterexample :
    create emptyCat vmsFile 0 = some Handler.dreamcastSavePair
    ∧ createClaim emptyCat vmsFile 0 = none := by
  exact ⟨by decide, by decide⟩

set_option maxHeartbeats 2000000 in
/-- C2: `create` never returns a handler built from a catalog descriptor
whose attribute bitset does not contain every bit of the requested
attributes — the returned stage/index always points at a descriptor that
passes the filter — and in all three stages a descriptor failing the
filter is skipped before its magic compare or `is_supported` predicate
is ever run: replacing any such descriptors (keeping their attribute
bits) cannot change the result. -/
theorem claim2_attrs_filter (cat : Catalog) (file : IRpFile) (attrs : Nat) :
    (∀ s i, create cat file attrs = some (.fromDescriptor s i) →
        ∃ fns, (stageFns cat s).get? i = some fns ∧ fns.attrs &&& attrs = attrs)
    ∧ (∀ cat' : Catalog,
        List.Forall₂ (SkipAgree attrs) cat.magicFns cat'.magicFns →
        List.Forall₂ (SkipAgree attrs) cat.headerFns cat'.headerFns →
        List.Forall₂ (SkipAgree attrs) cat.footerFns cat'.footerFns →
        create cat file attrs = create cat' file attrs) := by
  constructor
  · intro s i hc
    unfold create at hc
    by_cases h0 : file.readLen 0 4352 = 0
    · rw [if_pos h0] at hc
      exact absurd hc (by simp)
    · rw [if_neg h0] at hc
      cases hv : vmsSpecialTry file with
      | some hh =>
        simp only [hv] at hc
        have hpair := vmsSpecialTry_eq_some file hh hv
        subst hpair
        simp at hc
      | none =>
        simp only [hv] at hc
        cases hm : scanMagic file attrs ⟨0, file.readLen 0 4352, initialBuf file⟩
            cat.magicFns 0 with
        | some hh =>
          simp only [hm, Option.some.injEq] at hc
          subst hc
          obtain ⟨j, g, hhh, hj, hget, ha⟩ :=
            scanMagic_attrs_of_some file attrs _ cat.magicFns 0 _ hm
          injection hhh with hs1 hi1
          subst hs1
          subst hi1
          exact ⟨g, by simpa using hget, ha⟩
        | none =>
          simp only [hm] at hc
          rcases hp : scanHeader file attrs cat.headerFns 0
              ⟨0, file.readLen 0 4352, initialBuf file⟩ with ⟨r, st1⟩
          rw [hp] at hc
          cases r with
          | some hh =>
            simp only [Option.some.injEq] at hc
            subst hc
            obtain ⟨j, g, hhh, hj, hget, ha⟩ :=
              scanHeader_attrs_of_some file attrs cat.headerFns 0 _ _ (by rw [hp])
            injection hhh with hs1 hi1
            subst hs1
            subst hi1
            exact ⟨g, by simpa using hget, ha⟩
          | none =>
            by_cases hbig : file.szFile > 1073741824
            · simp only [if_pos hbig] at hc
              exact absurd hc (by simp)
            · simp only [if_neg hbig] at hc
              obtain ⟨j, g, hhh, hj, hget, ha⟩ :=
                scanFooter_attrs_of_some file attrs cat.footerFns 0 false st1 _ hc
              injection hhh with hs1 hi1
              subst hs1
              subst hi1
              exact ⟨g, by simpa using hget, ha⟩
  · intro cat' hmag hhead hfoot
    simp only [create,
      scanMagic_skipAgree_congr file attrs ⟨0, file.readLen 0 4352, initialBuf file⟩ hmag,
      scanHeader_skipAgree_congr file attrs hhead,
      scanFooter_skipAgree_congr file attrs hfoot]

/-- C2 witness: on a concrete file the returned magic-stage handler
comes from descriptor 0 of the catalog, which passes the (empty)
attribute requirement. -/
theorem claim2_witness :
    ∃ fns, (stageFns sampleCat .magic).get? 0 = some fns ∧ fns.attrs &&& 0 = 0 :=
  (claim2_attrs_filter sampleCat sampleFile 0).1 .magic 0 (by decide)

set_option maxHeartbeats 1000000 in
/-- C3: the footer stage is attempted only for files of at most 1 GiB —
for any larger file the footer descriptor table is irrelevant (detection
reports unsupported after the header stage) — and the fixed-size
trailing window is read at most once, lazily, and never when the file's
extension does not match the footer descriptors' `.vb` extension. -/
theorem claim3_footer_ceiling_lazy_read (cat : Catalog) (file : IRpFile) (attrs : Nat) :
    (file.szFile > 1073741824 →
      ∀ l, create cat file attrs = create ⟨cat.magicFns, cat.headerFns, l⟩ file attrs)
    ∧ createFooterReads cat file attrs ≤ 1
    ∧ (extIsVb file = false → createFooterReads cat file attrs = 0) := by
  refine ⟨?_, ?_, ?_⟩
  · intro hbig l
    simp only [create]
    by_cases h0 : file.readLen 0 4352 = 0
    · rw [if_pos h0, if_pos h0]
    · rw [if_neg h0, if_neg h0]
      cases hv : vmsSpecialTry file with
      | some hh => rfl
      | none =>
        cases hm : scanMagic file attrs ⟨0, file.readLen 0 4352, initialBuf file⟩
            cat.magicFns 0 with
        | some h => rfl
        | none =>
          rcases hp : scanHeader file attrs cat.headerFns 0
              ⟨0, file.readLen 0 4352, initialBuf file⟩ with ⟨r, st1⟩
          cases r with
          | some h => rfl
          | none => simp [hbig]
  · simp only [createFooterReads]
    by_cases h0 : file.readLen 0 4352 = 0
    · rw [if_pos h0]
      exact Nat.zero_le 1
    · rw [if_neg h0]
      cases hv : vmsSpecialTry file with
      | some hh => exact Nat.zero_le 1
      | none =>
        cases hm : scanMagic file attrs ⟨0, file.readLen 0 4352, initialBuf file⟩
            cat.magicFns 0 with
        | some h => exact Nat.zero_le 1
        | none =>
          rcases hp : scanHeader file attrs cat.headerFns 0
              ⟨0, file.readLen 0 4352, initialBuf file⟩ with ⟨r, st1⟩
          cases r with
          | some h => exact Nat.zero_le 1
          | none =>
            by_cases hbig : file.szFile > 1073741824
            · simp [hbig]
            · simpa [hbig] using
                scanFooterReads_le_one file attrs cat.footerFns 0 false st1
  · intro hvb
    simp only [createFooterReads]
    by_cases h0 : file.readLen 0 4352 = 0
    · rw [if_pos h0]
    · rw [if_neg h0]
      cases hv : vmsSpecialTry file with
      | some hh => rfl
      | none =>
        cases hm : scanMagic file attrs ⟨0, file.readLen 0 4352, initialBuf file⟩
            cat.magicFns 0 with
        | some h => rfl
        | none =>
          rcases hp : scanHeader file attrs cat.headerFns 0
              ⟨0, file.readLen 0 4352, initialBuf file⟩ with ⟨r, st1⟩
          cases r with
          | some h => rfl
          | none =>
            by_cases hbig : file.szFile > 1073741824
            · simp [hbig]
            · simpa [hbig] using
                scanFooterReads_no_vb file attrs hvb cat.footerFns 0 false st1

/-- C3 witness: a concrete 2 GiB file skips the footer stage for any
footer table, and a concrete extension-less file performs zero
trailing-window reads. -/
theorem claim3_witness :
    create sampleCat bigFile 0 =
      create ⟨sampleCat.magicFns, sampleCat.headerFns, []⟩ bigFile 0
    ∧ createFooterReads sampleCat sampleFile 0 = 0 :=
  ⟨(claim3_footer_ceiling_lazy_read sampleCat bigFile 0).1 (by decide) [],
   (claim3_footer_ceiling_lazy_read sampleCat sampleFile 0).2.2 rfl⟩

/-- C10: when the initial read of the detection header window returns
zero bytes, `create` returns null immediately — for every catalog (even
one whose predicates would accept a zero-length header) and every file
(even one whose Dreamcast paired-file special case would otherwise
produce a handler). -/
theorem claim10_zero_read_null (cat : Catalog) (file : IRpFile) (attrs : Nat)
    (h0 : file.readLen 0 4352 = 0) :
    create cat file attrs = none := by
  unfold create
  rw [if_pos h0]

/-- C10 witness: a concrete unreadable `.vms` file with a validating
Dreamcast sibling and an all-accepting catalog still yields null. -/
theorem claim10_witness :
    create sampleCat unreadableFile 7 = none :=
  claim10_zero_read_null sampleCat unreadableFile 7 rfl

/-- C9 (amended): each FieldTable construction helper (`addField_string`,
`addField_bitfield`, `addField_listData`, `addField_dateTime`,
`addField_ageRatings`, `addField_dimensions`) appends exactly one Field,
tagged with the current tab index, and returns that field's index; when a
required input is null (the name, the bitfield name list, the list-data
parameter block) the helper returns `-1` and appends nothing, rather than
panicking. -/
theorem claim9_amended_addField_append_one (rf : RomFields) (n : String)
    (str : Option String) (flags : Nat) (names : List String) (epr : Int) (v : Nat)
    (p : AFLD_PARAMS) (dt : Int) (ar : List Nat) (x y z : Int) :
    (∃ f : Field, addField_string rf (some n) str flags =
        (Int.ofNat rf.fields.length, { rf with fields := rf.fields ++ [f] })
        ∧ f.tabIdx = rf.tabIdx)
    ∧ (∃ f : Field, addField_bitfield rf (some n) (some names) epr v =
        (Int.ofNat rf.fields.length, { rf with fields := rf.fields ++ [f] })
        ∧ f.tabIdx = rf.tabIdx)
    ∧ (∃ f : Field, addField_listData rf (some n) (some p) =
        (Int.ofNat rf.fields.length, { rf with fields := rf.fields ++ [f] })
        ∧ f.tabIdx = rf.tabIdx)
    ∧ (∃ f : Field, addField_dateTime rf (some n) dt flags =
        (Int.ofNat rf.fields.length, { rf with fields := rf.fields ++ [f] })
        ∧ f.tabIdx = rf.tabIdx)
    ∧ (∃ f : Field, addField_ageRatings rf (some n) ar =
        (Int.ofNat rf.fields.length, { rf with fields := rf.fields ++ [f] })
        ∧ f.tabIdx = rf.tabIdx)
    ∧ (∃ f : Field, addField_dimensions rf (some n) x y z =
        (Int.ofNat rf.fields.length, { rf with fields := rf.fields ++ [f] })
        ∧ f.tabIdx = rf.tabIdx)
    ∧ addField_string rf none str flags = (-1, rf)
    ∧ addField_bitfield rf (some n) none epr v = (-1, rf)
    ∧ addField_listData rf (some n) none = (-1, rf)
    ∧ addField_dateTime rf none dt flags = (-1, rf)
    ∧ addField_ageRatings rf none ar = (-1, rf)
    ∧ addField_dimensions rf none x y z = (-1, rf) :=
  ⟨⟨_, rfl, rfl⟩, ⟨_, rfl, rfl⟩, ⟨_, rfl, rfl⟩, ⟨_, rfl, rfl⟩, ⟨_, rfl, rfl⟩,
   ⟨_, rfl, rfl⟩, rfl, rfl, rfl, rfl, rfl, rfl⟩

/-- C9 counterexample: `addField_bitfield` with a null name list on an
empty field table returns `-1` and appends no field at all — contrary to
the claim, no invalid payload-less field is added. -/
theorem claim9_counterexample :
    addField_bitfield ⟨[], 0, []⟩ (some "Flags") none 4 0 = (-1, ⟨[], 0, []⟩)
    ∧ (addField_bitfield ⟨[], 0, []⟩ (some "Flags") none 4 0).2.fields.length = 0 := by
  exact ⟨rfl, rfl⟩

/-- C5: for the USA authority, an active rating with min-age bits 3, 6,
10, 13, 17 or 18 decodes to "eC", "E", "E10+", "T", "M", "AO"
respectively and any other active unmapped age prints its numeric value
(in particular byte `0x80` decodes to "0"); active + no-restriction
(`0xA0`) decodes to "All"; an inactive byte (`0x00`) decodes to the empty
string and is excluded from the multi-rating summary. -/
theorem claim5_ageRatingDecode_usa :
    (∀ a : Fin 32, ageRatingDecode AGE_USA (0x80 + a.val) = usaLabelSpec a.val)
    ∧ ageRatingDecode AGE_USA 0x80 = "0"
    ∧ ageRatingDecode AGE_USA 0xA0 = "All"
    ∧ ageRatingDecode AGE_USA 0x00 = ""
    ∧ ageRatingsDecode [0x8C, 0x00, 0, 0, 0, 0, 0, 0, 0, 0, 0, 0, 0, 0, 0, 0] false
        = "CERO=B" := by
  refine ⟨by decide, by decide, by decide, by decide, by decide⟩

/-- C7 (amended): for a readable header with valid magic and version,
a declared entry-table length of 1,048,576 entries **or more** makes
`init()` report Invalid — the state equals the constant failure state
(not valid, file released, empty entry table), independent of anything
beyond the header; a declared length strictly below 1,048,576 proceeds
to read the whole entry table in one pass (the parsed table is exactly
the declared number of 18-byte records). -/
theorem claim7_amended_entry_table_ceiling (file : XdbfFile)
    (hhdr : file.readLenAt 0 24 = 24)
    (hmagic : lload32 file.byteAt 0 = bswap32 XDBF_MAGIC)
    (hver : lload32 file.byteAt 4 = bswap32 XDBF_VERSION) :
    (bswap32 (lload32 file.byteAt 8) ≥ 1048576 →
      initXdbf file = xdbfFailState) ∧
    (bswap32 (lload32 file.byteAt 8) < 1048576 →
      file.readLenAt 24 (bswap32 (lload32 file.byteAt 8) * 18) =
        bswap32 (lload32 file.byteAt 8) * 18 →
      (initXdbf file).isValid = true ∧
      (initXdbf file).entryTable =
        readEntryTable file.byteAt (bswap32 (lload32 file.byteAt 8)) ∧
      (initXdbf file).entryTable.length = bswap32 (lload32 file.byteAt 8)) := by
  constructor
  · intro h
    simp only [initXdbf, hhdr, hmagic, hver]
    simp [h]
  · intro h hread
    simp only [initXdbf, hhdr, hmagic, hver]
    simp [Nat.not_le.mpr h, hread, readEntryTable]

/-- C7 witness: the concrete two-entry container is parsed in full —
valid, with exactly the declared number of entries. -/
theorem claim7_witness :
    (initXdbf xdbfFileEnX).isValid = true ∧
    (initXdbf xdbfFileEnX).entryTable.length =
      bswap32 (lload32 xdbfFileEnX.byteAt 8) :=
  ⟨((claim7_amended_entry_table_ceiling xdbfFileEnX rfl (by decide) (by decide)).2
      (by decide) rfl).1,
   ((claim7_amended_entry_table_ceiling xdbfFileEnX rfl (by decide) (by decide)).2
      (by decide) rfl).2.2⟩

/-- C7 counterexample: a fully readable container whose valid header
declares exactly 1,048,576 entries — not exceeding the claim's ceiling,
so the claim says construction proceeds — is rejected by `init()`:
not valid, file released, entry table never read (and the read of the
entry table would have succeeded, so the rejection is not a read
failure). -/
theorem claim7_counterexample :
    bswap32 (lload32 xdbfFileBigTable.byteAt 8) = 1048576 ∧
    xdbfFileBigTable.readLenAt 24 (1048576 * 18) = 1048576 * 18 ∧
    (initXdbf xdbfFileBigTable).isValid = false ∧
    (initXdbf xdbfFileBigTable).fileOpen = false ∧
    (initXdbf xdbfFileBigTable).entryTable = [] := by
  refine ⟨by decide, rfl, ?_, ?_, ?_⟩ <;> decide

/-- C8: a string-table entry whose declared (decoded) size is at most
the embedded sub-header size or above 1 MiB, and an image resource
whose declared length is below 16 bytes or above 1 MiB, make the
specific load fail: the result is `none` with the state returned
unchanged (in particular still Valid), and — as the quantification over
`file` shows — without any dependence on the file, i.e. before any
buffer of the claimed size is allocated or any byte of that resource is
read. -/
theorem claim8_size_ceilings (st : XdbfState) (langID idx : Int)
    (entry : XDBF_Entry) (image_id : Nat) (ientry : XDBF_Entry)
    (hl1 : XDBF_LANGUAGE_UNKNOWN < langID) (hl2 : langID < XDBF_LANGUAGE_MAX)
    (hcache : st.strTbls langID.toNat = none)
    (hopen : st.fileOpen = true) (hvalid : st.isValid = true)
    (hidx : st.strTblIndexes langID.toNat = idx)
    (hidx0 : 0 ≤ idx)
    (hidxlt : idx < ((st.entryTable.length % 65536 : Nat) : Int))
    (hget : st.entryTable.get? idx.toNat = some entry)
    (hsz : bswap32 entry.length ≤ XDBF_XSTR_Header_SIZE ∨
      bswap32 entry.length > 1048576)
    (hicache : st.map_images image_id = none)
    (hne : st.entryTable.isEmpty = false)
    (hifind : findResource st.entryTable XDBF_SPA_NAMESPACE_IMAGE image_id =
      some ientry)
    (hisz : bswap32 ientry.length < 16 ∨ bswap32 ientry.length > 1048576) :
    (∀ file : XdbfFile, loadStringTable file st langID = (none, st)) ∧
    (∀ file : XdbfFile, loadImage file st image_id = (none, st)) := by
  simp only [XDBF_LANGUAGE_UNKNOWN, XDBF_LANGUAGE_MAX] at hl1 hl2
  simp only [XDBF_XSTR_Header_SIZE] at hsz
  constructor
  · intro file
    simp only [loadStringTable, XDBF_LANGUAGE_UNKNOWN, XDBF_LANGUAGE_MAX,
      XDBF_XSTR_Header_SIZE, hcache, hopen, hvalid, hidx, hget]
    split_ifs <;> first | rfl | omega | simp_all
  · intro file
    simp only [loadImage, hicache, hne, hopen, hvalid, hifind]
    split_ifs <;> first | rfl | omega | simp_all

/-- C8 witness: on a concrete valid state declaring a 2,000,000-byte
English string table and a 2,000,000-byte image resource, both loads
fail with the state unchanged. -/
theorem claim8_witness :
    loadStringTable xdbfDummyFile xdbfOversizedState XDBF_LANGUAGE_ENGLISH =
      (none, xdbfOversizedState) ∧
    loadImage xdbfDummyFile xdbfOversizedState 77 = (none, xdbfOversizedState) :=
  ⟨(claim8_size_ceilings xdbfOversizedState XDBF_LANGUAGE_ENGLISH 0
      xdbfOversizedStrEntry 77 xdbfOversizedImgEntry
      (by decide) (by decide) rfl rfl rfl (by decide) (by decide) (by decide)
      rfl (by decide) rfl rfl (by decide) (by decide)).1 xdbfDummyFile,
   (claim8_size_ceilings xdbfOversizedState XDBF_LANGUAGE_ENGLISH 0
      xdbfOversizedStrEntry 77 xdbfOversizedImgEntry
      (by decide) (by decide) rfl rfl rfl (by decide) (by decide) (by decide)
      rfl (by decide) rfl rfl (by decide) (by decide)).2 xdbfDummyFile⟩

/-- C6 (amended): the language fallback is: requested (system)
language if its string table loads; else the XSTC default-language
marker — whose absence or malformedness aborts the whole lookup to the
unknown language — if it differs and its table loads; else English
(unless it was one of the two candidates); else unknown.  Separately,
per-string callers retry a failed lookup in English only.  The spec's
scenario holds: with only Japanese and English tables, requesting the
German string for an ID present only in English yields the English
string.  Demonstrated: (a) the marker selects Japanese on a
German-language host; (b) English is selected when both the system and
marker languages have no table; (c) the plain German lookup is empty
but the English-fallback lookup returns the English string; (d) with
no marker resource the language lookup reports unknown (no
"first loaded table" step). -/
theorem claim6_amended_language_fallback :
    (getLanguageID xdbfFileJE (initXdbf xdbfFileJE)).1 = XDBF_LANGUAGE_JAPANESE ∧
    (getLanguageID xdbfFileEnX (initXdbf xdbfFileEnX)).1 = XDBF_LANGUAGE_ENGLISH ∧
    (loadString xdbfFileJE (initXdbf xdbfFileJE)
      XDBF_LANGUAGE_GERMAN XDBF_ID_TITLE).1 = "" ∧
    (loadStringEnFallback xdbfFileJE (initXdbf xdbfFileJE)
      XDBF_LANGUAGE_GERMAN XDBF_ID_TITLE).1 = "Hello" ∧
    (getLanguageID xdbfFileKo (initXdbf xdbfFileKo)).1 = XDBF_LANGUAGE_UNKNOWN := by
  refine ⟨?_, ?_, ?_, ?_, ?_⟩ <;> decide

/-- C6 counterexample: a container holding only a Korean string table
(title present, `"K"`) and no XSTC marker.  The claim's chain —
requested language, marker, English, then the first language with any
loaded string table — yields `"K"`, but the parser's title lookup
returns the empty string: `getLanguageID` aborts to unknown as soon as
the marker resource is missing, and no "first loaded table" step
exists. -/
theorem claim6_counterexample :
    claimFallbackString xdbfFileKo (initXdbf xdbfFileKo) XDBF_ID_TITLE = "K" ∧
    getString_title xdbfFileKo (initXdbf xdbfFileKo) = "" := by
  constructor <;> decide

end RomProps
